import Mathlib

/-!
# habitrack: the weekly statistics of `StatRepository.UpdateStats`

A shallow embedding of `backend/models/habit.go`: the tracking record, the
single left-to-right scan that `UpdateStats` runs over the records returned by
`TrackRepository.GetTracking`, the seven day window it is computed over and the
`float64` success rate; of the two upserts of that file on their tables; and of
the handlers `TrackHabit` and `GetHabitStats` of
`backend/internal/handlers/habit_handler.go`.

Conventions of the embedding.

* A `time.Time` is an absolute instant, counted in nanoseconds since the zero
  time (January 1, year 1, 00:00:00 UTC), together with its location. A
  `time.Location` is the UTC offset in use before its first transition and the
  list of its transitions, each with the instant it happens and the offset in
  use from then on; instants and offsets are counted in nanoseconds where Go
  counts seconds, which changes no comparison, since transitions fall on whole
  seconds. The rule that the time zone database gives for the years after the
  last listed transition is not part of the model.
* The Go `int` counters of the scan are natural numbers: each of them is bounded
  by the number of records scanned, which is a slice length, so no counter can
  leave the range of a 64 bit integer.
* A `float64` is a mantissa and a binary exponent, and denotes a rational
  number; every arithmetic operation computes the exact result and rounds it to
  the nearest binary64 value, ties to even, as IEEE 754 prescribes.
-/

namespace Habitrack

/-! ## Data model -/

/-- Go `time.Duration`: a number of nanoseconds. -/
abbrev Duration := Int

/-- Go `time.Hour`. -/
def Hour : Duration := 3600000000000

/-- Go `zoneTrans`: at the instant `when` the location changes to the zone whose
offset east of UTC is `offset`. -/
structure zoneTrans where
  when : Int
  offset : Int
  deriving DecidableEq, Repr

/-- Go `time.Location`: the offset of the zone in use before the first
transition, and the transitions in ascending order of `when`. -/
structure Location where
  offset : Int
  tx : List zoneTrans
  deriving DecidableEq, Repr

/-- Go `time.UTC`. -/
def UTC : Location := ⟨0, []⟩

/-- Go `time.FixedZone`: a location that always uses the given offset. -/
def FixedZone (offset : Int) : Location := ⟨offset, []⟩

/-- The result of `Location.lookup`: the offset of the zone in use and the
interval `[start, stop)` of instants during which it is in use. Go returns the
least and the greatest `int64` for a zone that has no start or no end; here
that is `none`. -/
structure zoneSpan where
  offset : Int
  start : Option Int
  stop : Option Int
  deriving DecidableEq, Repr

/-- The search of `Location.lookup` through the transitions: the zone of the
last transition that is not after `sec`. -/
def lookupFrom (offset : Int) (start : Option Int) : List zoneTrans → Int → zoneSpan
  | [], _ => ⟨offset, start, none⟩
  | tr :: tx, sec =>
    if sec < tr.when then ⟨offset, start, some tr.when⟩
    else lookupFrom tr.offset (some tr.when) tx sec

/-- Go `Location.lookup`: the zone in use at the instant `sec`. -/
def Location.lookup (l : Location) (sec : Int) : zoneSpan :=
  lookupFrom l.offset none l.tx sec

/-- The end of Go `time.Date`: the wall clock reading `unix`, counted as if it
were an absolute time, is turned into the absolute time that shows it in the
location. Go looks up the zone at `unix` itself; with `utc := unix - offset`, if
`utc < start || utc >= end` it looks up the zone at `utc` instead; then it
subtracts the offset found. -/
def Location.fromWall (l : Location) (unix : Int) : Int :=
  let z := l.lookup unix
  if z.offset ≠ 0 then
    let utc := unix - z.offset
    let early := match z.start with
      | some start => decide (utc < start)
      | none => false
    let late := match z.stop with
      | some stop => decide (utc ≥ stop)
      | none => false
    if early || late then unix - (l.lookup utc).offset else unix - z.offset
  else unix

/-- Go `time.Time`. -/
structure Time where
  /-- nanoseconds since the zero time, January 1 of year 1, 00:00:00 UTC -/
  abs : Int
  /-- the location in which the time is read -/
  loc : Location
  deriving DecidableEq, Repr

/-- Go `Time.Truncate`: round the absolute time down to a multiple of `d` since
the zero time; a non-positive `d` leaves the time unchanged. The remainder that
Go's `div` returns is never negative, also for instants before the zero time,
which is the remainder `%` of `Int`. -/
def Time.Truncate (t : Time) (d : Duration) : Time :=
  if d ≤ 0 then t else { t with abs := t.abs - t.abs % d }

/-- Go `t.AddDate(0, 0, days)`: the wall clock reading of `t` in its location is
split into the civil day and the clock within the day, `days` is added to the
day, and `time.Date` reads the result back as an absolute time in the same
location. -/
def Time.AddDateDays (t : Time) (days : Int) : Time :=
  let wall := t.abs + (t.loc.lookup t.abs).offset
  let civilDay := wall / (24 * Hour)
  let clock := wall % (24 * Hour)
  { t with abs := t.loc.fromWall ((civilDay + days) * (24 * Hour) + clock) }

/-- The record `HabitTrackRecord` of `models/habit.go`. -/
structure HabitTrackRecord where
  ID : Int
  HabitID : Int
  Date : Time
  Completed : Bool
  Value : Int
  Notes : String
  deriving DecidableEq, Repr

/-! ## `float64`

The success rate is the only floating point value of the program. Its operands
are never negative and far below `2 ^ 1024`, so a `float64` is represented by a
mantissa and a binary exponent, and each operation rounds the exact quotient or
product to the nearest binary64 value, ties to even. -/

/-- A finite, non-negative binary64 value `mant * 2 ^ exp`. -/
structure Float64 where
  mant : Nat
  exp : Int
  deriving DecidableEq, Repr

/-- The rational number a `Float64` denotes. -/
def Float64.toRat (x : Float64) : ℚ := (x.mant : ℚ) * 2 ^ x.exp

/-- The integer nearest to `n / d`, the even one when two are equally near. -/
def roundHalfEven (n d : Nat) : Nat :=
  let q := n / d
  let r := n % d
  if 2 * r < d then q
  else if d < 2 * r then q + 1
  else if q % 2 = 0 then q else q + 1

/-- The position of the highest set bit of `n`; `fuel = n` always suffices. -/
def floorLog2 : Nat → Nat → Nat
  | 0, _ => 0
  | fuel + 1, n => if n < 2 then 0 else floorLog2 fuel (n / 2) + 1

/-- The exponent `e` with `2 ^ e ≤ n / d < 2 ^ (e + 1)`, for positive `n`, `d`. -/
def binade (n d : Nat) : Int :=
  let a := floorLog2 n n
  let b := floorLog2 d d
  if d * 2 ^ a ≤ n * 2 ^ b then (a : Int) - b else (a : Int) - b - 1

/-- IEEE 754 round to nearest, ties to even, of the exact value `n / d`: the
result has 53 significant bits, or the spacing `2 ^ (-1074)` of the subnormal
range. -/
def Float64.round (n d : Nat) : Float64 :=
  if n = 0 then ⟨0, 0⟩
  else
    let e := max (binade n d) (-1022)
    ⟨roundHalfEven (n * 2 ^ (52 - e).toNat) (d * 2 ^ (e - 52).toNat), e - 52⟩

/-- Go `float64(n)` for a non-negative `int`. -/
def Float64.ofInt (n : Nat) : Float64 := Float64.round n 1

/-- Go `a / b` on `float64`, for a divisor that is not zero. -/
def Float64.div (a b : Float64) : Float64 :=
  Float64.round (a.mant * 2 ^ (a.exp - b.exp).toNat) (b.mant * 2 ^ (b.exp - a.exp).toNat)

/-- Go `a * b` on `float64`. -/
def Float64.mul (a b : Float64) : Float64 :=
  Float64.round (a.mant * b.mant * 2 ^ (a.exp + b.exp).toNat) (2 ^ (-(a.exp + b.exp)).toNat)

/-! ## The scan of `UpdateStats` -/

/-- The local variables of `UpdateStats` that the loop over the records writes. -/
structure ScanState where
  completedDays : Nat
  streak : Nat
  longestStreak : Nat
  currentStreak : Nat
  deriving DecidableEq, Repr

/-- The values of the four counters before the loop. -/
def ScanState.init : ScanState :=
  { completedDays := 0, streak := 0, longestStreak := 0, currentStreak := 0 }

/-- One iteration of `for _, record := range records`. -/
def scanStep (s : ScanState) (record : HabitTrackRecord) : ScanState :=
  if record.Completed then
    let s1 := { s with completedDays := s.completedDays + 1 }
    let s2 := { s1 with currentStreak := s1.currentStreak + 1 }
    if s2.currentStreak > s2.longestStreak then
      { s2 with longestStreak := s2.currentStreak }
    else s2
  else
    let s1 := if s.currentStreak > s.streak then { s with streak := s.currentStreak } else s
    { s1 with currentStreak := 0 }

/-- The whole loop, from the initial counters. -/
def scanRecords (records : List HabitTrackRecord) : ScanState :=
  records.foldl scanStep ScanState.init

/-- The statement after the loop, commented `Set final streak`. -/
def setFinalStreak (s : ScanState) : ScanState :=
  if s.currentStreak > s.streak then { s with streak := s.currentStreak } else s

/-- The counters as they stand when the `Stat` is built. -/
def finalCounters (records : List HabitTrackRecord) : ScanState :=
  setFinalStreak (scanRecords records)

/-! ## `UpdateStats` -/

/-- The record `Stat` of `models/habit.go`; `Streak` carries the source comment
`Current streak`. -/
structure Stat where
  ID : Int
  UserID : Int
  HabitID : Int
  Period : String
  StartDate : Time
  EndDate : Time
  TotalDays : Nat
  CompletedDays : Nat
  SuccessRate : Float64
  Streak : Nat
  LongestStreak : Nat
  CalculatedAt : Time
  deriving DecidableEq, Repr

/-- The local `totalDays := 7` of `UpdateStats`. -/
def totalDays : Nat := 7

/-- The expression `float64(completedDays) / float64(totalDays) * 100.0`. -/
def successRate (completedDays : Nat) : Float64 :=
  Float64.mul (Float64.div (Float64.ofInt completedDays) (Float64.ofInt totalDays))
    (Float64.ofInt 100)

/-- The end of the window: `now.Truncate(24 * time.Hour)`. -/
def windowEnd (now : Time) : Time := now.Truncate (24 * Hour)

/-- The start of the window: `endDate.AddDate(0, 0, -6)`. -/
def windowStart (now : Time) : Time := (windowEnd now).AddDateDays (-6)

/-- The `Stat` literal that `UpdateStats` builds from the fetched records, before
the store assigns `ID`. -/
def buildStat (now : Time) (habitID userID : Int) (records : List HabitTrackRecord) : Stat :=
  let c := finalCounters records
  { ID := 0
    UserID := userID
    HabitID := habitID
    Period := "weekly"
    StartDate := windowStart now
    EndDate := windowEnd now
    TotalDays := totalDays
    CompletedDays := c.completedDays
    SuccessRate := successRate c.completedDays
    Streak := c.streak
    LongestStreak := c.longestStreak
    CalculatedAt := now }

/-- The method `StatRepository.UpdateStats`. The two statements that talk to the
database are arguments: `getTracking` is the call of `TrackRepository.GetTracking`
and `upsertStat` the `INSERT ... ON CONFLICT ... RETURNING id`, each of which
either fails or yields its result. -/
def UpdateStats (now : Time)
    (getTracking : Int → Time → Time → Except String (List HabitTrackRecord))
    (upsertStat : Stat → Except String Int)
    (habitID userID : Int) : Except String Stat :=
  match getTracking habitID (windowStart now) (windowEnd now) with
  | .error err => .error err
  | .ok records =>
    let stat := buildStat now habitID userID records
    match upsertStat stat with
    | .error err => .error err
    | .ok id => .ok { stat with ID := id }

/-- The rows that the query of `TrackRepository.GetTracking` selects from the
table `habit_tracks`: those of the habit with `startDate <= date <= endDate`,
in ascending order of date. -/
def GetTracking (habit_tracks : List HabitTrackRecord) (habitID : Int)
    (startDate endDate : Time) : List HabitTrackRecord :=
  (habit_tracks.filter fun r =>
      decide (r.HabitID = habitID) && decide (startDate.abs ≤ r.Date.abs)
        && decide (r.Date.abs ≤ endDate.abs)).insertionSort
    fun a b => a.Date.abs ≤ b.Date.abs

/-! ## Runs, blocks and the zero-filled window -/

/-- Every record of the block is completed. -/
def AllCompleted (block : List HabitTrackRecord) : Prop :=
  ∀ r ∈ block, r.Completed = true

/-- The number `n` is the length of the longest contiguous block of completed
records of `records`: some block of completed records has length `n` and none is
longer. -/
def IsLongestCompletedBlock (records : List HabitTrackRecord) (n : Nat) : Prop :=
  (∃ block, block <:+: records ∧ AllCompleted block ∧ block.length = n) ∧
    ∀ block, block <:+: records → AllCompleted block → block.length ≤ n

/-- The number `n` is the length of the longest run of completed records that a
record which is not completed closes: no block of completed records directly
followed by such a record is longer, and one has length `n` unless `n = 0`. -/
def IsLongestClosedBlock (records : List HabitTrackRecord) (n : Nat) : Prop :=
  (n = 0 ∨ ∃ block r, (block ++ [r]) <:+: records ∧ AllCompleted block ∧
      r.Completed = false ∧ block.length = n) ∧
    ∀ block r, (block ++ [r]) <:+: records → AllCompleted block → r.Completed = false →
      block.length ≤ n

/-- The number `n` is the length of the run of completed records at the end of
the sequence: the longest block of completed records that ends the sequence. -/
def IsTrailingBlock (records : List HabitTrackRecord) (n : Nat) : Prop :=
  (∃ block, block <:+ records ∧ AllCompleted block ∧ block.length = n) ∧
    ∀ block, block <:+ records → AllCompleted block → block.length ≤ n

/-- The number of completed records at the head of the sequence. -/
def leadingRun (records : List HabitTrackRecord) : Nat :=
  (records.takeWhile fun r => r.Completed).length

/-- The number of completed records at the end of the sequence: the current
streak. -/
def trailingRun (records : List HabitTrackRecord) : Nat :=
  leadingRun records.reverse

/-- The longest run of completed records: the longest of the runs that start at
each position. -/
def longestRun : List HabitTrackRecord → Nat
  | [] => 0
  | r :: rest => max (leadingRun (r :: rest)) (longestRun rest)

/-- The run of completed records at the head, counted only if a record that is
not completed follows it. -/
def leadingClosedRun (records : List HabitTrackRecord) : Nat :=
  if (records.dropWhile fun r => r.Completed) = [] then 0 else leadingRun records

/-- The longest run of completed records that a record which is not completed
closes; a run that reaches the end of the sequence is left out. -/
def longestClosedRun : List HabitTrackRecord → Nat
  | [] => 0
  | r :: rest => max (leadingClosedRun (r :: rest)) (longestClosedRun rest)

/-- The day of an instant: the number of whole periods of 24 hours since the zero
time, which is the civil day in UTC. -/
def dayOf (t : Time) : Int := t.abs / (24 * Hour)

/-- The starts of the seven days of the window that ends on the day of `endDate`:
that day and the six days before it. -/
def windowDays (endDate : Time) : List Time :=
  (List.range 7).map fun (i : Nat) =>
    { endDate with abs := (dayOf endDate - 6 + (i : Int)) * (24 * Hour) }

/-- The record that stands for a day without a record: not completed. -/
def blankRecord (habitID : Int) (date : Time) : HabitTrackRecord :=
  { ID := 0, HabitID := habitID, Date := date, Completed := false, Value := 0, Notes := "" }

/-- The first record of `records` dated on the day of `day`, if there is one. -/
def recordOn (records : List HabitTrackRecord) (day : Time) : Option HabitTrackRecord :=
  records.find? fun r => decide (dayOf r.Date = dayOf day)

/-- The zero-filled sequence the specification speaks of: one record for each of the seven days
of the window, the record of `records` for that day where there is one and a
record with `Completed = false` where there is none. -/
def zeroFill (endDate : Time) (habitID : Int) (records : List HabitTrackRecord) :
    List HabitTrackRecord :=
  (windowDays endDate).map fun day => (recordOn records day).getD (blankRecord habitID day)

/-- The records hold at most one record per day: no two of them are dated on the
same day. -/
def OneRecordPerDay (records : List HabitTrackRecord) : Prop :=
  records.Pairwise fun a b => dayOf a.Date ≠ dayOf b.Date

/-- The records that `UpdateStats` fetches at time `now` from the table. -/
def fetchedRecords (now : Time) (habit_tracks : List HabitTrackRecord) (habitID : Int) :
    List HabitTrackRecord :=
  GetTracking habit_tracks habitID (windowStart now) (windowEnd now)

/-- The fetched records, zero-filled over the seven days that end on the day of
the end of the window of `now`. -/
def zeroFilledRecords (now : Time) (habit_tracks : List HabitTrackRecord) (habitID : Int) :
    List HabitTrackRecord :=
  zeroFill (windowEnd now) habitID (fetchedRecords now habit_tracks habitID)

/-! ## Sample inputs -/

/-- A record of habit 1 dated at the start of day `day`, completed or not. -/
def sampleRecord (day : Int) (completed : Bool) : HabitTrackRecord :=
  { ID := day, HabitID := 1, Date := ⟨day * (24 * Hour), UTC⟩, Completed := completed,
    Value := 0, Notes := "" }

/-- Noon UTC of day 738000 after the zero time. -/
def sampleNow : Time := ⟨738000 * (24 * Hour) + 12 * Hour, UTC⟩

/-- A table of habit 1 with a record at the start of day 737996 and a record at
one o'clock in the afternoon of day 737998, both completed. -/
def sampleTimedTable : List HabitTrackRecord :=
  [{ sampleRecord 737998 true with Date := ⟨737998 * (24 * Hour) + 13 * Hour, UTC⟩ },
   sampleRecord 737996 true]

/-- The location `America/New_York` around the year 2026: Eastern Standard Time,
five hours west of UTC, until 2026-03-08 07:00 UTC (day 739682), Eastern Daylight
Time, four hours west, until 2026-11-01 06:00 UTC (day 739920), and Eastern
Standard Time again. -/
def NewYork : Location :=
  { offset := -5 * Hour
    tx := [⟨739682 * (24 * Hour) + 7 * Hour, -4 * Hour⟩,
           ⟨739920 * (24 * Hour) + 6 * Hour, -5 * Hour⟩] }

/-- Noon in New York on 2026-03-10 (day 739684), which is 16:00 UTC: two days
after the clocks were set forward. -/
def springNow : Time := ⟨739684 * (24 * Hour) + 16 * Hour, NewYork⟩

/-- Noon in New York on 2026-11-03 (day 739922), which is 17:00 UTC: two days
after the clocks were set back. -/
def autumnNow : Time := ⟨739922 * (24 * Hour) + 17 * Hour, NewYork⟩

/-! ## The handlers of `internal/handlers/habit_handler.go`

A handler reads the request, calls repository methods and writes one response.
The outcome of each SQL statement is given by a `Database`: a statement either
fails or yields its result. A handler returns its response together with the
repository calls it made, in order. -/

/-- The record `Habit` of `models/habit.go`. -/
structure Habit where
  ID : Int
  UserID : Int
  Name : String
  Description : String
  /-- the field `Type`, a `HabitType` -/
  HabitType : String
  CreatedAt : Time
  UpdatedAt : Time
  Goal : Int
  FrequencyUnit : String
  ReminderEnabled : Bool
  ReminderTime : String
  ReminderDays : String
  Color : String
  Icon : String
  IsArchived : Bool
  deriving DecidableEq, Repr

/-- Go `Time.IsZero`: the instant is January 1, year 1, 00:00:00 UTC. -/
def Time.IsZero (t : Time) : Bool := decide (t.abs = 0)

/-- The error of `QueryRow(...).Scan(...)`: `sql.ErrNoRows` or any other error. -/
inductive SqlError where
  | ErrNoRows
  | other (msg : String)
  deriving DecidableEq, Repr

/-- The outcomes of the SQL statements that the handlers reach. -/
structure Database where
  /-- the method `HabitRepository.GetByID` -/
  habitByID : Int → Int → Except String Habit
  /-- the `INSERT ... ON CONFLICT ... RETURNING id` of `TrackRepository.TrackHabit` -/
  insertTrack : HabitTrackRecord → Except String Int
  /-- the method `TrackRepository.GetTracking` -/
  getTracking : Int → Time → Time → Except String (List HabitTrackRecord)
  /-- the `INSERT ... ON CONFLICT ... RETURNING id` of `StatRepository.UpdateStats` -/
  upsertStat : Stat → Except String Int
  /-- the `SELECT ... LIMIT 1` of `StatRepository.GetStats` with its `Scan` -/
  selectStat : Int → Int → String → Except SqlError Stat

/-- The method `StatRepository.GetStats`, given the outcome of its query:
`sql.ErrNoRows` becomes the error `stats not found`, any other error is returned
as it is. -/
def GetStats (row : Except SqlError Stat) : Except String Stat :=
  match row with
  | .ok stat => .ok stat
  | .error .ErrNoRows => .error "stats not found"
  | .error (.other msg) => .error msg

/-- A call of a repository method. -/
inductive Call where
  | GetByID (id userID : Int)
  | TrackHabit (record : HabitTrackRecord)
  | UpdateStats (habitID userID : Int)
  | GetStats (habitID userID : Int) (period : String)
  deriving DecidableEq, Repr

/-- The JSON body of a response. -/
inductive Body where
  | error (message : String)
  | record (record : HabitTrackRecord)
  | stat (stat : Stat)
  deriving DecidableEq, Repr

/-- The response written with `c.JSON(status, body)`. -/
structure Response where
  status : Nat
  body : Body
  deriving DecidableEq, Repr

/-- What `HabitHandler.TrackHabit` reads from the request: the `userID` of the
context, if the middleware set one; the result of `strconv.ParseInt` on the URL
parameter `id`, if it parses; the record that `ShouldBindJSON` decodes from the
body, if it binds. -/
structure TrackRequest where
  userID : Option Int
  id : Option Int
  body : Option HabitTrackRecord
  deriving DecidableEq, Repr

/-- The record that `HabitHandler.TrackHabit` hands to the repository: the decoded
body with `HabitID` set from the URL and, if its date is the zero time, `Date`
set to `time.Now().Truncate(24 * time.Hour)`. -/
def trackedRecord (now : Time) (habitID : Int) (body : HabitTrackRecord) : HabitTrackRecord :=
  let record := { body with HabitID := habitID }
  if record.Date.IsZero then { record with Date := now.Truncate (24 * Hour) } else record

/-- The handler `HabitHandler.TrackHabit`; `now` is the clock reading in the
handler and `statsNow` the one inside `UpdateStats`. The result of `UpdateStats`
is assigned to `err` and not used. -/
def HabitHandler.TrackHabit (db : Database) (now statsNow : Time) (req : TrackRequest) :
    Response × List Call :=
  match req.userID with
  | none => (⟨401, .error "Unauthorized"⟩, [])
  | some userID =>
    match req.id with
    | none => (⟨400, .error "Invalid habit ID"⟩, [])
    | some habitID =>
      match db.habitByID habitID userID with
      | .error _ => (⟨404, .error "Habit not found"⟩, [.GetByID habitID userID])
      | .ok _ =>
        match req.body with
        | none => (⟨400, .error "Invalid request format"⟩, [.GetByID habitID userID])
        | some body =>
          let record := trackedRecord now habitID body
          match db.insertTrack record with
          | .error _ =>
            (⟨500, .error "Failed to track habit"⟩,
              [.GetByID habitID userID, .TrackHabit record])
          | .ok id =>
            let _err := UpdateStats statsNow db.getTracking db.upsertStat habitID userID
            (⟨200, .record { record with ID := id }⟩,
              [.GetByID habitID userID, .TrackHabit record, .UpdateStats habitID userID])

/-- What `HabitHandler.GetHabitStats` reads from the request; `period` is the
query parameter, if the query has one. -/
structure StatsRequest where
  userID : Option Int
  id : Option Int
  period : Option String
  deriving DecidableEq, Repr

/-- The call `c.DefaultQuery("period", "weekly")`. -/
def requestedPeriod (req : StatsRequest) : String := req.period.getD "weekly"

/-- The test `period != "daily" && period != "weekly" && period != "monthly" &&
period != "yearly"` negated: the period is one of the four names. -/
def validPeriod (period : String) : Bool :=
  period == "daily" || period == "weekly" || period == "monthly" || period == "yearly"

/-- The handler `HabitHandler.GetHabitStats`; `statsNow` is the clock reading
inside `UpdateStats`. -/
def HabitHandler.GetHabitStats (db : Database) (statsNow : Time) (req : StatsRequest) :
    Response × List Call :=
  match req.userID with
  | none => (⟨401, .error "Unauthorized"⟩, [])
  | some userID =>
    match req.id with
    | none => (⟨400, .error "Invalid habit ID"⟩, [])
    | some habitID =>
      match db.habitByID habitID userID with
      | .error _ => (⟨404, .error "Habit not found"⟩, [.GetByID habitID userID])
      | .ok _ =>
        let period := requestedPeriod req
        if validPeriod period = false then
          (⟨400, .error "Invalid period (use daily, weekly, monthly, or yearly)"⟩,
            [.GetByID habitID userID])
        else
          match GetStats (db.selectStat habitID userID period) with
          | .ok stats =>
            (⟨200, .stat stats⟩,
              [.GetByID habitID userID, .GetStats habitID userID period])
          | .error _ =>
            match UpdateStats statsNow db.getTracking db.upsertStat habitID userID with
            | .error _ =>
              (⟨500, .error "Failed to retrieve statistics"⟩,
                [.GetByID habitID userID, .GetStats habitID userID period,
                  .UpdateStats habitID userID])
            | .ok stats =>
              (⟨200, .stat stats⟩,
                [.GetByID habitID userID, .GetStats habitID userID period,
                  .UpdateStats habitID userID])

/-! ## The two upserts on their tables

The statements `INSERT ... ON CONFLICT (key) DO UPDATE SET ... RETURNING id` of
`TrackRepository.TrackHabit` and of `StatRepository.UpdateStats`, when they
succeed, on a table given as the list of its rows. The argument `freshID` is the
identifier that the table's sequence assigns to an inserted row. -/

/-- The statement `INSERT INTO table ... ON CONFLICT (key) DO UPDATE SET ...
RETURNING id`, when it succeeds: if a row of the table has the key of `row`, the
rows with that key are updated from `row` and the `id` of the row found is
returned; otherwise `row` is inserted with the identifier `freshID`, which is
returned. -/
def insertOnConflict {α κ : Type} [DecidableEq κ] (key : α → κ) (doUpdate : α → α → α)
    (getID : α → Int) (withID : α → Int → α) (table : List α) (freshID : Int) (row : α) :
    List α × Int :=
  match table.find? fun r => decide (key r = key row) with
  | some old =>
    (table.map fun r => if key r = key row then doUpdate row r else r, getID old)
  | none => (table ++ [withID row freshID], freshID)

/-- The conflict target `(habit_id, date)` of the table `habit_tracks`. -/
def trackKey (r : HabitTrackRecord) : Int × Int := (r.HabitID, r.Date.abs)

/-- The key `(habit_id, date)` is unique in the table. -/
def UniqueTrackKeys (habit_tracks : List HabitTrackRecord) : Prop :=
  (habit_tracks.map trackKey).Nodup

/-- The clause `DO UPDATE SET completed = $3, value = $4, notes = $5`. -/
def overwriteTrack (record row : HabitTrackRecord) : HabitTrackRecord :=
  { row with Completed := record.Completed, Value := record.Value, Notes := record.Notes }

/-- The method `TrackRepository.TrackHabit` when its statement succeeds, on the
table `habit_tracks`; `RETURNING id` is scanned into `record.ID`. The result is
the table and the record as the caller sees it. -/
def TrackRepository.TrackHabit (habit_tracks : List HabitTrackRecord) (freshID : Int)
    (record : HabitTrackRecord) : List HabitTrackRecord × HabitTrackRecord :=
  let result := insertOnConflict trackKey overwriteTrack (fun r => r.ID)
    (fun r id => { r with ID := id }) habit_tracks freshID record
  (result.1, { record with ID := result.2 })

/-- The tracking table after the repository calls of a handler run. -/
def tracksAfter (habit_tracks : List HabitTrackRecord) (freshID : Int) (calls : List Call) :
    List HabitTrackRecord :=
  calls.foldl
    (fun table call =>
      match call with
      | .TrackHabit record => (TrackRepository.TrackHabit table freshID record).1
      | _ => table)
    habit_tracks

/-- The conflict target `(habit_id, period, start_date, end_date)` of the table
`habit_stats`. -/
def statKey (s : Stat) : Int × String × Int × Int :=
  (s.HabitID, s.Period, s.StartDate.abs, s.EndDate.abs)

/-- The key `(habit_id, period, start_date, end_date)` is unique in the table. -/
def UniqueStatKeys (habit_stats : List Stat) : Prop :=
  (habit_stats.map statKey).Nodup

/-- The clause `DO UPDATE SET total_days = $6, completed_days = $7, success_rate =
$8, streak = $9, longest_streak = $10, calculated_at = $11`. -/
def overwriteStat (stat row : Stat) : Stat :=
  { row with
    TotalDays := stat.TotalDays
    CompletedDays := stat.CompletedDays
    SuccessRate := stat.SuccessRate
    Streak := stat.Streak
    LongestStreak := stat.LongestStreak
    CalculatedAt := stat.CalculatedAt }

/-- The statement that stores the `Stat` in `UpdateStats`, when it succeeds, on
the table `habit_stats`. The result is the table and the returned `id`. -/
def upsertStatRow (habit_stats : List Stat) (freshID : Int) (stat : Stat) :
    List Stat × Int :=
  insertOnConflict statKey overwriteStat (fun r => r.ID) (fun r id => { r with ID := id })
    habit_stats freshID stat

/-- The method `UpdateStats` on a database whose statements succeed: the records
come from the table `habit_tracks`, the `Stat` goes into the table `habit_stats`.
The result is what `UpdateStats` returns and the table `habit_stats` afterwards. -/
def UpdateStatsOn (habit_tracks : List HabitTrackRecord) (habit_stats : List Stat)
    (freshID : Int) (now : Time) (habitID userID : Int) : Except String Stat × List Stat :=
  (UpdateStats now (fun h s e => .ok (GetTracking habit_tracks h s e))
      (fun stat => .ok (upsertStatRow habit_stats freshID stat).2) habitID userID,
    (upsertStatRow habit_stats freshID
      (buildStat now habitID userID (fetchedRecords now habit_tracks habitID))).1)

/-! ## Sample requests -/

/-- A habit of user 7 with identifier 1. -/
def sampleHabit : Habit :=
  { ID := 1, UserID := 7, Name := "read", Description := "", HabitType := "positive",
    CreatedAt := ⟨0, UTC⟩, UpdatedAt := ⟨0, UTC⟩, Goal := 1, FrequencyUnit := "daily",
    ReminderEnabled := false, ReminderTime := "", ReminderDays := "", Color := "", Icon := "",
    IsArchived := false }

/-- A database that is up, holds habit 1 of user 7, no tracking record and no
statistics, and assigns the identifier 1 to a row it inserts. -/
def sampleDatabase : Database :=
  { habitByID := fun id userID =>
      if id = 1 ∧ userID = 7 then .ok sampleHabit else .error "habit not found"
    insertTrack := fun record => .ok (TrackRepository.TrackHabit [] 1 record).2.ID
    getTracking := fun habitID startDate endDate => .ok (GetTracking [] habitID startDate endDate)
    upsertStat := fun stat => .ok (upsertStatRow [] 1 stat).2
    selectStat := fun _ _ _ => .error .ErrNoRows }

/-- The sample database when the query of `GetStats` fails with an error that is
not `sql.ErrNoRows`. -/
def sampleDatabaseSelectFails : Database :=
  { sampleDatabase with selectStat := fun _ _ _ => .error (.other "driver: bad connection") }

/-- A track request of user 7 for habit 1 whose body gives the date: one o'clock
in the afternoon of day 738000, and names habit 99. -/
def sampleTrackRequest : TrackRequest :=
  { userID := some 7, id := some 1,
    body := some { ID := 0, HabitID := 99, Date := ⟨738000 * (24 * Hour) + 13 * Hour, UTC⟩,
                   Completed := true, Value := 0, Notes := "" } }

/-! ## The handler `UpdateHabit` -/

/-- The JSON body that `HabitHandler.UpdateHabit` writes. -/
inductive HabitBody where
  | error (message : String)
  | habit (habit : Habit)
  deriving DecidableEq, Repr

/-- The response that `HabitHandler.UpdateHabit` writes. -/
structure HabitResponse where
  status : Nat
  body : HabitBody
  deriving DecidableEq, Repr

/-- A call of a method of `HabitRepository`. -/
inductive HabitCall where
  | GetByID (id userID : Int)
  | Update (habit : Habit)
  deriving DecidableEq, Repr

/-- What `HabitHandler.UpdateHabit` reads from the request: the `userID` of the
context, the parsed URL parameter `id`, and the habit that `ShouldBindJSON`
decodes from the body, each if there is one. -/
structure UpdateRequest where
  userID : Option Int
  id : Option Int
  body : Option Habit
  deriving DecidableEq, Repr

/-- The method `HabitRepository.Update`: it sets `UpdatedAt` to the clock reading
and executes the `UPDATE`, whose outcome is `exec`. The result is the habit as the
caller sees it afterwards and the error, if any. -/
def HabitRepository.Update (now : Time) (exec : Habit → Except String Unit) (habit : Habit) :
    Habit × Except String Unit :=
  let habit := { habit with UpdatedAt := now }
  (habit, exec habit)

/-- The handler `HabitHandler.UpdateHabit`. The argument `validate` is the outcome
of `validator.New().Struct`, `exec` the outcome of the `UPDATE` statement and
`now` the clock reading inside `HabitRepository.Update`. -/
def HabitHandler.UpdateHabit (db : Database) (validate : Habit → Except String Unit)
    (exec : Habit → Except String Unit) (now : Time) (req : UpdateRequest) :
    HabitResponse × List HabitCall :=
  match req.userID with
  | none => (⟨401, .error "Unauthorized"⟩, [])
  | some userID =>
    match req.id with
    | none => (⟨400, .error "Invalid habit ID"⟩, [])
    | some habitID =>
      match db.habitByID habitID userID with
      | .error _ => (⟨404, .error "Habit not found"⟩, [.GetByID habitID userID])
      | .ok habit =>
        match req.body with
        | none => (⟨400, .error "Invalid request format"⟩, [.GetByID habitID userID])
        | some body =>
          if habit.UserID ≠ userID then
            (⟨403, .error "You don't have permission to update this habit"⟩,
              [.GetByID habitID userID])
          else
            let updatedHabit :=
              { body with ID := habitID, UserID := userID, CreatedAt := habit.CreatedAt }
            match validate updatedHabit with
            | .error err => (⟨400, .error err⟩, [.GetByID habitID userID])
            | .ok _ =>
              match HabitRepository.Update now exec updatedHabit with
              | (_, .error _) =>
                (⟨500, .error "Failed to update habit"⟩,
                  [.GetByID habitID userID, .Update updatedHabit])
              | (stored, .ok _) =>
                (⟨200, .habit stored⟩, [.GetByID habitID userID, .Update updatedHabit])

/-! ## The handler `RequestPasswordReset` and the middleware -/

/-- The record `User` of `models/user.go`. -/
structure User where
  ID : Int
  Username : String
  Email : String
  Password : String
  HashedPassword : String
  CreatedAt : Time
  UpdatedAt : Time
  LastLogin : Time
  PasswordResetToken : String
  PasswordResetExpires : Time
  deriving DecidableEq, Repr

/-- The request body `PasswordResetRequest`. -/
structure PasswordResetRequest where
  Email : String
  deriving DecidableEq, Repr

/-- A response whose body is a `gin.H` of strings, as its key and value pairs. -/
structure JSONResponse where
  status : Nat
  body : List (String × String)
  deriving DecidableEq, Repr

/-- Go `Time.Add`. -/
def Time.Add (t : Time) (d : Duration) : Time := { t with abs := t.abs + d }

/-- The handler `UserHandler.RequestPasswordReset`. The argument `body` is the
request that `ShouldBindJSON` decodes, if it binds; `getByEmail` and `updateToken`
are the outcomes of `UserRepository.GetByEmail` and
`UserRepository.UpdatePasswordResetToken`; `stamp` is
`time.Now().Format("20060102150405")` and `now` the clock reading for `expires`. -/
def UserHandler.RequestPasswordReset (getByEmail : String → Except String User)
    (updateToken : String → String → Time → Except String Unit) (now : Time) (stamp : String)
    (body : Option PasswordResetRequest) : JSONResponse :=
  match body with
  | none => ⟨400, [("error", "Invalid request format")]⟩
  | some req =>
    match getByEmail req.Email with
    | .error _ =>
      ⟨200, [("message", "If your email is registered, you will receive a password reset link")]⟩
    | .ok user =>
      let resetToken := "reset-token-" ++ stamp
      let expires := now.Add (24 * Hour)
      match updateToken user.Email resetToken expires with
      | .error _ => ⟨500, [("error", "Failed to process reset request")]⟩
      | .ok _ => ⟨200, [("message", "Password reset link sent"), ("token", resetToken)]⟩

/-- The parts of a string between its spaces; there is always at least one. -/
def splitOnSpace : List Char → List (List Char)
  | [] => [[]]
  | c :: cs =>
    if c = ' ' then [] :: splitOnSpace cs
    else
      match splitOnSpace cs with
      | [] => [[c]]
      | part :: parts => (c :: part) :: parts

/-- Go `strings.Split(s, " ")`. -/
def Split (s : String) : List String := (splitOnSpace s.data).map String.mk

/-- Go `strings.ToLower`, on the letters `A` to `Z`. Go lowers letters outside
ASCII as well; none of them becomes a letter of `bearer`, so the comparison of
the result with `bearer`, the only use made of it, is the same. -/
def ToLower (s : String) : String := String.mk (s.data.map Char.toLower)

/-- What `AuthMiddleware` does with a request: the response written with
`c.JSON`, if any; whether `c.Abort()` ran; the value given to `c.Set("userID",
...)`, if any; the token passed to `ValidateJWT`, if any; whether `c.Next()` ran. -/
structure AuthOutcome where
  response : Option JSONResponse
  aborted : Bool
  userID : Option Int
  validated : Option String
  next : Bool
  deriving DecidableEq, Repr

/-- The handler that `AuthMiddleware` returns; `authHeader` is
`c.GetHeader("Authorization")`, which is empty when the header is absent, and
`validateJWT` gives the `UserID` of the claims that `utils.ValidateJWT` returns for
a token under the configured secret, or its error. The test `len(parts) != 2 ||
strings.ToLower(parts[0]) != "bearer"` is the match on the two parts. -/
def AuthMiddleware (validateJWT : String → Except String Int) (authHeader : String) :
    AuthOutcome :=
  if authHeader = "" then
    { response := some ⟨401, [("error", "Authorization header is required")]⟩,
      aborted := true, userID := none, validated := none, next := false }
  else
    match Split authHeader with
    | [scheme, tokenString] =>
      if ToLower scheme ≠ "bearer" then
        { response :=
            some ⟨401, [("error", "Authorization header format must be Bearer \x7btoken\x7d")]⟩,
          aborted := true, userID := none, validated := none, next := false }
      else
        match validateJWT tokenString with
        | .error _ =>
          { response := some ⟨401, [("error", "Invalid or expired token")]⟩,
            aborted := true, userID := none, validated := some tokenString, next := false }
        | .ok userID =>
          { response := none, aborted := false, userID := some userID,
            validated := some tokenString, next := true }
    | _ =>
      { response :=
          some ⟨401, [("error", "Authorization header format must be Bearer \x7btoken\x7d")]⟩,
        aborted := true, userID := none, validated := none, next := false }

/-! ## Sample users and tokens -/

/-- A registered user. -/
def sampleUser : User :=
  { ID := 7, Username := "ann", Email := "ann@example.com", Password := "",
    HashedPassword := "hash", CreatedAt := ⟨0, UTC⟩, UpdatedAt := ⟨0, UTC⟩, LastLogin := ⟨0, UTC⟩,
    PasswordResetToken := "", PasswordResetExpires := ⟨0, UTC⟩ }

/-- A user table that holds `sampleUser` alone. -/
def sampleGetByEmail (email : String) : Except String User :=
  if email = "ann@example.com" then .ok sampleUser else .error "user not found"

/-- A validation of tokens that accepts the token `good` for user 7. -/
def sampleValidateJWT (token : String) : Except String Int :=
  if token = "good" then .ok 7 else .error "token is malformed"

/-! ## The rounding of `float64` -/

/-- The result of `roundHalfEven` differs from `n / d` by at most one half. -/
theorem roundHalfEven_spec (n d : Nat) (hd : 0 < d) :
    2 * n ≤ (2 * roundHalfEven n d + 1) * d ∧ 2 * roundHalfEven n d * d ≤ 2 * n + d := by
  have h := Nat.div_add_mod n d
  have hr := Nat.mod_lt n hd
  unfold roundHalfEven
  simp only
  generalize n / d = q at *
  generalize n % d = r at *
  subst h
  split_ifs <;> constructor <;> nlinarith

/-- With enough fuel `floorLog2` is the position of the highest set bit. -/
theorem floorLog2_spec (fuel n : Nat) (hn : 0 < n) (hfuel : n ≤ fuel) :
    2 ^ floorLog2 fuel n ≤ n ∧ n < 2 ^ (floorLog2 fuel n + 1) := by
  induction fuel generalizing n with
  | zero => omega
  | succ fuel ih =>
    unfold floorLog2
    split_ifs with h2
    · simp
      omega
    · obtain ⟨h1, h3⟩ := ih (n / 2) (by omega) (by omega)
      rw [pow_succ] at h3 ⊢
      rw [pow_succ]
      constructor <;> omega

/-- The exponent `binade n d` is the binade of the quotient `n / d`. -/
theorem binade_spec (n d : Nat) (hn : 0 < n) (hd : 0 < d) :
    (2 : ℚ) ^ binade n d ≤ (n : ℚ) / d ∧ (n : ℚ) / d < 2 ^ (binade n d + 1) := by
  obtain ⟨ha1, ha2⟩ := floorLog2_spec n n hn le_rfl
  obtain ⟨hb1, hb2⟩ := floorLog2_spec d d hd le_rfl
  have hdq : (0 : ℚ) < d := by exact_mod_cast hd
  have hA : (0 : ℚ) < 2 ^ floorLog2 n n := by positivity
  have hB : (0 : ℚ) < 2 ^ floorLog2 d d := by positivity
  have ha1q : (2 : ℚ) ^ floorLog2 n n ≤ n := by exact_mod_cast ha1
  have ha2q : (n : ℚ) < 2 ^ floorLog2 n n * 2 := by
    rw [pow_succ] at ha2
    exact_mod_cast ha2
  have hb1q : (2 : ℚ) ^ floorLog2 d d ≤ d := by exact_mod_cast hb1
  have hb2q : (d : ℚ) < 2 ^ floorLog2 d d * 2 := by
    rw [pow_succ] at hb2
    exact_mod_cast hb2
  have hsub : (2 : ℚ) ^ ((floorLog2 n n : Int) - floorLog2 d d)
      = 2 ^ floorLog2 n n / 2 ^ floorLog2 d d := by
    rw [zpow_sub₀ (by norm_num), zpow_natCast, zpow_natCast]
  unfold binade
  simp only
  split_ifs with hcase
  · have hq : (d : ℚ) * 2 ^ floorLog2 n n ≤ n * 2 ^ floorLog2 d d := by exact_mod_cast hcase
    rw [zpow_add₀ (by norm_num), hsub, zpow_one]
    constructor
    · rw [div_le_div_iff₀ hB hdq]
      linarith
    · rw [div_mul_eq_mul_div, div_lt_div_iff₀ hdq hB]
      nlinarith
  · have hq : (n : ℚ) * 2 ^ floorLog2 d d < d * 2 ^ floorLog2 n n := by
      push_neg at hcase
      exact_mod_cast hcase
    rw [sub_add_cancel, zpow_sub₀ (by norm_num), hsub, zpow_one]
    constructor
    · rw [div_div, div_le_div_iff₀ (by positivity) hdq]
      nlinarith
    · rw [div_lt_div_iff₀ hdq hB]
      linarith

/-- Scaling numerator or denominator by a power of two scales the quotient. -/
theorem scaled_quotient (n d : Nat) (k : Int) :
    ((n * 2 ^ k.toNat : Nat) : ℚ) / ((d * 2 ^ (-k).toNat : Nat) : ℚ) = (n : ℚ) / d * 2 ^ k := by
  rcases le_total 0 k with hk | hk
  · have h1 : (-k).toNat = 0 := Int.toNat_eq_zero.mpr (by omega)
    have h2 : (2 : ℚ) ^ k = 2 ^ k.toNat := by
      rw [← zpow_natCast, Int.toNat_of_nonneg hk]
    rw [h1, h2]
    push_cast
    ring
  · have h1 : k.toNat = 0 := Int.toNat_eq_zero.mpr hk
    have h2 : (2 : ℚ) ^ k = (2 ^ (-k).toNat)⁻¹ := by
      rw [← zpow_natCast, Int.toNat_of_nonneg (by omega), zpow_neg, inv_inv]
    rw [h1, h2]
    push_cast
    field_simp

/-- The value `Float64.round n d` is within half a unit in the last place of the
exact quotient `n / d`: the unit is `2 ^ (e - 52)` with `e` the binade of the
quotient, or `-1022` in the subnormal range. -/
theorem Float64.round_spec (n d : Nat) (hn : 0 < n) (hd : 0 < d) :
    |(Float64.round n d).toRat - (n : ℚ) / d| ≤ 2 ^ (max (binade n d) (-1022) - 53) := by
  unfold Float64.round Float64.toRat
  rw [if_neg (by omega)]
  simp only
  generalize max (binade n d) (-1022) = e
  have hk : e - 52 = -(52 - e) := by ring
  have hq := scaled_quotient n d (52 - e)
  rw [← hk] at hq
  have hN : 0 < n * 2 ^ (52 - e).toNat := Nat.mul_pos hn (by positivity)
  have hD : 0 < d * 2 ^ (e - 52).toNat := Nat.mul_pos hd (by positivity)
  obtain ⟨h1, h2⟩ := roundHalfEven_spec _ _ hD
  generalize roundHalfEven (n * 2 ^ (52 - e).toNat) (d * 2 ^ (e - 52).toNat) = m at h1 h2 ⊢
  generalize n * 2 ^ (52 - e).toNat = N at hq hN h1 h2
  generalize d * 2 ^ (e - 52).toNat = D at hq hD h1 h2
  have hDq : (0 : ℚ) < D := by exact_mod_cast hD
  have h1q : 2 * (N : ℚ) ≤ (2 * m + 1) * D := by exact_mod_cast h1
  have h2q : 2 * (m : ℚ) * D ≤ 2 * N + D := by exact_mod_cast h2
  have hnd : (n : ℚ) / d = (N : ℚ) / D * 2 ^ (e - 52) := by
    rw [hq, mul_assoc, ← zpow_add₀ (by norm_num)]
    have : 52 - e + (e - 52) = 0 := by ring
    rw [this, zpow_zero, mul_one]
  have hhalf : |(m : ℚ) - (N : ℚ) / D| ≤ 1 / 2 := by
    have hx : (N : ℚ) / D * D = N := div_mul_cancel₀ _ hDq.ne.symm
    rw [abs_le]
    constructor
    · by_contra hcon
      push_neg at hcon
      have := mul_pos (sub_pos.mpr hcon) hDq
      nlinarith
    · by_contra hcon
      push_neg at hcon
      have := mul_pos (sub_pos.mpr hcon) hDq
      nlinarith
  have hpos : (0 : ℚ) < 2 ^ (e - 52) := by positivity
  have h53 : (2 : ℚ) ^ (e - 53) = 1 / 2 * 2 ^ (e - 52) := by
    have : e - 53 = (e - 52) - 1 := by ring
    rw [this, zpow_sub₀ (by norm_num), zpow_one]
    ring
  rw [hnd, ← sub_mul, abs_mul, abs_of_pos hpos, h53]
  exact mul_le_mul_of_nonneg_right hhalf hpos.le

/-- The quotient that `Float64.div` rounds is the exact quotient of its operands. -/
theorem Float64.div_exact (a b : Float64) :
    ((a.mant * 2 ^ (a.exp - b.exp).toNat : Nat) : ℚ)
        / ((b.mant * 2 ^ (b.exp - a.exp).toNat : Nat) : ℚ)
      = a.toRat / b.toRat := by
  have hk : b.exp - a.exp = -(a.exp - b.exp) := by ring
  rw [hk, scaled_quotient]
  unfold Float64.toRat
  rw [zpow_sub₀ (by norm_num)]
  field_simp

/-- The quotient that `Float64.mul` rounds is the exact product of its operands. -/
theorem Float64.mul_exact (a b : Float64) :
    ((a.mant * b.mant * 2 ^ (a.exp + b.exp).toNat : Nat) : ℚ)
        / ((2 ^ (-(a.exp + b.exp)).toNat : Nat) : ℚ)
      = a.toRat * b.toRat := by
  have h := scaled_quotient (a.mant * b.mant) 1 (a.exp + b.exp)
  rw [Nat.one_mul] at h
  rw [h]
  unfold Float64.toRat
  rw [zpow_add₀ (by norm_num)]
  push_cast
  ring

/-! ## The scan, counter by counter -/

theorem scanStep_completed (s : ScanState) (r : HabitTrackRecord) (h : r.Completed = true) :
    scanStep s r =
      { completedDays := s.completedDays + 1
        streak := s.streak
        longestStreak := max s.longestStreak (s.currentStreak + 1)
        currentStreak := s.currentStreak + 1 } := by
  unfold scanStep
  simp only [h, if_true]
  by_cases hlt : s.currentStreak + 1 > s.longestStreak
  · simp only [hlt, if_true]
    congr 1
    omega
  · simp only [hlt, if_false]
    congr 1
    omega

theorem scanStep_skipped (s : ScanState) (r : HabitTrackRecord) (h : r.Completed = false) :
    scanStep s r =
      { completedDays := s.completedDays
        streak := max s.streak s.currentStreak
        longestStreak := s.longestStreak
        currentStreak := 0 } := by
  unfold scanStep
  simp only [h, Bool.false_eq_true, if_false]
  by_cases hlt : s.currentStreak > s.streak
  · simp only [hlt, if_true]
    congr 1
    omega
  · simp only [hlt, if_false]
    congr 1
    omega

theorem leadingRun_nil : leadingRun [] = 0 := rfl

theorem leadingRun_cons_completed (r : HabitTrackRecord) (l : List HabitTrackRecord)
    (h : r.Completed = true) : leadingRun (r :: l) = leadingRun l + 1 := by
  simp [leadingRun, List.takeWhile_cons, h]

theorem leadingRun_cons_skipped (r : HabitTrackRecord) (l : List HabitTrackRecord)
    (h : r.Completed = false) : leadingRun (r :: l) = 0 := by
  simp [leadingRun, List.takeWhile_cons, h]

theorem leadingRun_le_longestRun (l : List HabitTrackRecord) : leadingRun l ≤ longestRun l := by
  cases l with
  | nil => simp [leadingRun, longestRun]
  | cons r rest => simp [longestRun]

theorem leadingClosedRun_le_longestClosedRun (l : List HabitTrackRecord) :
    leadingClosedRun l ≤ longestClosedRun l := by
  cases l with
  | nil => simp [leadingClosedRun, longestClosedRun]
  | cons r rest => simp [longestClosedRun]

theorem leadingClosedRun_cons_completed (r : HabitTrackRecord) (l : List HabitTrackRecord)
    (h : r.Completed = true) :
    leadingClosedRun (r :: l) =
      if (l.dropWhile fun r => r.Completed) = [] then 0 else leadingRun l + 1 := by
  simp [leadingClosedRun, List.dropWhile_cons, h, leadingRun_cons_completed]

theorem leadingClosedRun_cons_skipped (r : HabitTrackRecord) (l : List HabitTrackRecord)
    (h : r.Completed = false) : leadingClosedRun (r :: l) = 0 := by
  simp [leadingClosedRun, List.dropWhile_cons, h, leadingRun_cons_skipped]

/-- The counter `completedDays` after the loop, from any starting state. -/
theorem foldl_completedDays (l : List HabitTrackRecord) (s : ScanState) :
    (l.foldl scanStep s).completedDays
      = s.completedDays + l.countP (fun r => r.Completed) := by
  induction l generalizing s with
  | nil => simp
  | cons r rest ih =>
    rw [List.foldl_cons, ih]
    cases h : r.Completed
    · rw [scanStep_skipped s r h]
      simp [List.countP_cons, h]
    · rw [scanStep_completed s r h]
      simp [List.countP_cons, h]
      omega

/-- The counter `longestStreak` after the loop, from any starting state. -/
theorem foldl_longestStreak (l : List HabitTrackRecord) (s : ScanState) :
    (l.foldl scanStep s).longestStreak
      = max s.longestStreak
          (max (if 0 < leadingRun l then s.currentStreak + leadingRun l else 0)
            (longestRun l)) := by
  induction l generalizing s with
  | nil => simp [leadingRun, longestRun]
  | cons r rest ih =>
    rw [List.foldl_cons, ih]
    have hle := leadingRun_le_longestRun rest
    cases h : r.Completed
    · rw [scanStep_skipped s r h]
      simp only [longestRun, leadingRun_cons_skipped r rest h]
      split_ifs <;> omega
    · rw [scanStep_completed s r h]
      simp only [longestRun, leadingRun_cons_completed r rest h]
      split_ifs <;> omega

/-- The variable `streak` after the loop, from any starting state. -/
theorem foldl_streak (l : List HabitTrackRecord) (s : ScanState) :
    (l.foldl scanStep s).streak
      = max s.streak
          (max (if (l.dropWhile fun r => r.Completed) = [] then 0
                else s.currentStreak + leadingRun l)
            (longestClosedRun l)) := by
  induction l generalizing s with
  | nil => simp [longestClosedRun]
  | cons r rest ih =>
    rw [List.foldl_cons, ih]
    have hle := leadingClosedRun_le_longestClosedRun rest
    cases h : r.Completed
    · rw [scanStep_skipped s r h]
      simp only [longestClosedRun, leadingClosedRun_cons_skipped r rest h,
        leadingRun_cons_skipped r rest h, List.dropWhile_cons, h]
      unfold leadingClosedRun at hle
      split_ifs at hle ⊢ <;> simp_all <;> omega
    · rw [scanStep_completed s r h]
      simp only [longestClosedRun, leadingClosedRun_cons_completed r rest h,
        leadingRun_cons_completed r rest h, List.dropWhile_cons, h, if_true]
      split_ifs <;> omega

theorem trailingRun_append_completed (l : List HabitTrackRecord) (r : HabitTrackRecord)
    (h : r.Completed = true) : trailingRun (l ++ [r]) = trailingRun l + 1 := by
  simp [trailingRun, leadingRun_cons_completed _ _ h]

theorem trailingRun_append_skipped (l : List HabitTrackRecord) (r : HabitTrackRecord)
    (h : r.Completed = false) : trailingRun (l ++ [r]) = 0 := by
  simp [trailingRun, leadingRun_cons_skipped _ _ h]

/-- The variable `currentStreak` after the loop is the run of completed records
at the end of the sequence. -/
theorem scanRecords_currentStreak (l : List HabitTrackRecord) :
    (scanRecords l).currentStreak = trailingRun l := by
  induction l using List.reverseRecOn with
  | nil => rfl
  | append_singleton l r ih =>
    unfold scanRecords at ih ⊢
    rw [List.foldl_append, List.foldl_cons, List.foldl_nil]
    cases h : r.Completed
    · rw [scanStep_skipped _ r h, trailingRun_append_skipped l r h]
    · rw [scanStep_completed _ r h, trailingRun_append_completed l r h, ih]

theorem leadingRun_le_length (l : List HabitTrackRecord) : leadingRun l ≤ l.length := by
  unfold leadingRun
  exact (List.takeWhile_prefix _).length_le

theorem leadingRun_eq_length_iff (l : List HabitTrackRecord) :
    leadingRun l = l.length ↔ AllCompleted l := by
  unfold leadingRun AllCompleted
  rw [← List.takeWhile_eq_self_iff]
  constructor
  · intro h
    exact (List.takeWhile_prefix _).eq_of_length h
  · intro h
    rw [h]

theorem dropWhile_eq_nil_iff_allCompleted (l : List HabitTrackRecord) :
    (l.dropWhile fun r => r.Completed) = [] ↔ AllCompleted l := by
  unfold AllCompleted
  exact List.dropWhile_eq_nil_iff

theorem allCompleted_reverse (l : List HabitTrackRecord) :
    AllCompleted l.reverse ↔ AllCompleted l := by
  simp [AllCompleted]

theorem trailingRun_of_allCompleted (l : List HabitTrackRecord) (h : AllCompleted l) :
    trailingRun l = l.length := by
  unfold trailingRun
  rw [(leadingRun_eq_length_iff l.reverse).mpr ((allCompleted_reverse l).mpr h),
    List.length_reverse]

/-- Putting a record in front of a sequence that is not completed throughout
leaves the run at its end as it was. -/
theorem trailingRun_cons_of_not_allCompleted (r : HabitTrackRecord)
    (l : List HabitTrackRecord) (h : ¬ AllCompleted l) :
    trailingRun (r :: l) = trailingRun l := by
  unfold trailingRun leadingRun
  rw [List.reverse_cons, List.takeWhile_append]
  have hne : ¬ (List.takeWhile (fun r => r.Completed) l.reverse).length = l.reverse.length := by
    intro hlen
    exact h ((allCompleted_reverse l).mp ((leadingRun_eq_length_iff l.reverse).mp hlen))
  rw [if_neg hne]

theorem trailingRun_cons_skipped_of_allCompleted (r : HabitTrackRecord)
    (l : List HabitTrackRecord) (hr : r.Completed = false) (h : AllCompleted l) :
    trailingRun (r :: l) = l.length := by
  unfold trailingRun leadingRun
  rw [List.reverse_cons, List.takeWhile_append]
  have heq : (List.takeWhile (fun r => r.Completed) l.reverse).length = l.reverse.length :=
    (leadingRun_eq_length_iff l.reverse).mpr ((allCompleted_reverse l).mpr h)
  rw [if_pos heq]
  simp [hr]

/-- The longest run is the longer of the longest closed run and the run at the
end of the sequence. -/
theorem longestRun_eq_max (l : List HabitTrackRecord) :
    longestRun l = max (longestClosedRun l) (trailingRun l) := by
  induction l with
  | nil => rfl
  | cons r rest ih =>
    have hlen := leadingRun_le_length rest
    by_cases hall : AllCompleted (r :: rest)
    · have hrest : AllCompleted rest := fun x hx => hall x (List.mem_cons_of_mem _ hx)
      have h1 : leadingRun (r :: rest) = rest.length + 1 := by
        rw [(leadingRun_eq_length_iff _).mpr hall, List.length_cons]
      have h2 : leadingClosedRun (r :: rest) = 0 := by
        unfold leadingClosedRun
        rw [if_pos ((dropWhile_eq_nil_iff_allCompleted _).mpr hall)]
      have h3 : trailingRun (r :: rest) = rest.length + 1 := by
        rw [trailingRun_of_allCompleted _ hall, List.length_cons]
      have h4 : trailingRun rest = rest.length := trailingRun_of_allCompleted _ hrest
      simp only [longestRun, longestClosedRun, h1, h2, h3, ih, h4]
      omega
    · have h2 : leadingClosedRun (r :: rest) = leadingRun (r :: rest) := by
        unfold leadingClosedRun
        rw [if_neg (fun hnil => hall ((dropWhile_eq_nil_iff_allCompleted _).mp hnil))]
      have h3 : trailingRun (r :: rest) = trailingRun rest := by
        by_cases hrest : AllCompleted rest
        · have hr : r.Completed = false := by
            cases hc : r.Completed
            · rfl
            · exfalso
              apply hall
              intro x hx
              rcases List.mem_cons.mp hx with rfl | hx
              · exact hc
              · exact hrest x hx
          rw [trailingRun_cons_skipped_of_allCompleted r rest hr hrest,
            trailingRun_of_allCompleted rest hrest]
        · exact trailingRun_cons_of_not_allCompleted r rest hrest
      simp only [longestRun, longestClosedRun, h2, h3, ih]
      omega

/-- A block of completed records at the head of a sequence is no longer than the
run at its head. -/
theorem length_le_leadingRun_of_prefix (block l : List HabitTrackRecord)
    (hp : block <+: l) (hc : AllCompleted block) : block.length ≤ leadingRun l := by
  induction block generalizing l with
  | nil => simp
  | cons b bs ih =>
    obtain ⟨t, rfl⟩ := hp
    have hb : b.Completed = true := hc b (List.mem_cons_self _ _)
    have hbs : AllCompleted bs := fun x hx => hc x (List.mem_cons_of_mem _ hx)
    rw [List.cons_append, leadingRun_cons_completed b _ hb, List.length_cons]
    exact Nat.succ_le_succ (ih (bs ++ t) (List.prefix_append bs t) hbs)

/-- The function `longestRun` computes the length of the longest contiguous block
of completed records. -/
theorem longestRun_isLongestCompletedBlock (l : List HabitTrackRecord) :
    IsLongestCompletedBlock l (longestRun l) := by
  induction l with
  | nil =>
    refine ⟨⟨[], List.infix_refl _, ?_, rfl⟩, ?_⟩
    · intro x hx
      cases hx
    · intro block hb _
      rw [List.infix_nil.mp hb]
      simp [longestRun]
  | cons r rest ih =>
    obtain ⟨⟨w, hw, hwc, hwl⟩, hmax⟩ := ih
    constructor
    · by_cases hle : longestRun rest ≤ leadingRun (r :: rest)
      · refine ⟨(r :: rest).takeWhile (fun r => r.Completed),
          (List.takeWhile_prefix _).isInfix, ?_, ?_⟩
        · intro x hx
          exact List.mem_takeWhile_imp hx
        · simp only [longestRun]
          unfold leadingRun at hle ⊢
          omega
      · refine ⟨w, ?_, hwc, ?_⟩
        · exact List.infix_cons hw
        · simp only [longestRun]
          omega
    · intro block hb hc
      simp only [longestRun]
      rcases List.infix_cons_iff.mp hb with hp | hi
      · have := length_le_leadingRun_of_prefix block (r :: rest) hp hc
        omega
      · have := hmax block hi hc
        omega

/-- The function `trailingRun` computes the length of the longest block of
completed records that ends the sequence. -/
theorem trailingRun_isTrailingBlock (l : List HabitTrackRecord) :
    IsTrailingBlock l (trailingRun l) := by
  constructor
  · refine ⟨(l.reverse.takeWhile fun r => r.Completed).reverse, ?_, ?_, ?_⟩
    · have hp := List.takeWhile_prefix (fun r : HabitTrackRecord => r.Completed) (l := l.reverse)
      have := List.reverse_suffix.mpr hp
      rwa [List.reverse_reverse] at this
    · intro x hx
      exact List.mem_takeWhile_imp (List.mem_reverse.mp hx)
    · simp [trailingRun, leadingRun]
  · intro block hb hc
    unfold trailingRun
    exact length_le_leadingRun_of_prefix block.reverse l.reverse (List.reverse_prefix.mpr hb)
      ((allCompleted_reverse block).mpr hc) |> (by simpa using ·)

theorem leadingClosedRun_of_prefix (block l : List HabitTrackRecord) (r : HabitTrackRecord)
    (hp : (block ++ [r]) <+: l) (hc : AllCompleted block) (hr : r.Completed = false) :
    leadingClosedRun l = block.length := by
  obtain ⟨t, rfl⟩ := hp
  have hc' : ∀ a ∈ block, (fun r : HabitTrackRecord => r.Completed) a = true := hc
  unfold leadingClosedRun leadingRun
  rw [List.append_assoc, List.dropWhile_append_of_pos hc', List.takeWhile_append_of_pos hc']
  simp [List.dropWhile_cons, List.takeWhile_cons, hr]

/-- The function `longestClosedRun` computes the length of the longest run of
completed records that a record which is not completed closes. -/
theorem longestClosedRun_isLongestClosedBlock (l : List HabitTrackRecord) :
    IsLongestClosedBlock l (longestClosedRun l) := by
  induction l with
  | nil =>
    refine ⟨Or.inl rfl, ?_⟩
    intro block r hb _ _
    have := List.infix_nil.mp hb
    simp at this
  | cons x rest ih =>
    obtain ⟨hex, hmax⟩ := ih
    constructor
    · by_cases hle : leadingClosedRun (x :: rest) ≤ longestClosedRun rest
      · have heq : longestClosedRun (x :: rest) = longestClosedRun rest := by
          simp only [longestClosedRun]
          omega
        rw [heq]
        rcases hex with h0 | ⟨block, r, hb, hc, hr, hlen⟩
        · exact Or.inl h0
        · exact Or.inr ⟨block, r, List.infix_cons hb, hc, hr, hlen⟩
      · have heq : longestClosedRun (x :: rest) = leadingClosedRun (x :: rest) := by
          simp only [longestClosedRun]
          omega
        rw [heq]
        right
        have hne : ((x :: rest).dropWhile fun r => r.Completed) ≠ [] := by
          intro hnil
          unfold leadingClosedRun at hle
          rw [if_pos hnil] at hle
          exact hle (Nat.zero_le _)
        refine ⟨(x :: rest).takeWhile (fun r => r.Completed),
          ((x :: rest).dropWhile fun r => r.Completed).head hne, ?_, ?_, ?_, ?_⟩
        · refine List.IsPrefix.isInfix ⟨((x :: rest).dropWhile fun r => r.Completed).tail, ?_⟩
          rw [List.append_assoc, List.singleton_append, List.head_cons_tail,
            List.takeWhile_append_dropWhile]
        · intro y hy
          exact List.mem_takeWhile_imp hy
        · exact List.head_dropWhile_not _ _ hne
        · unfold leadingClosedRun
          rw [if_neg hne]
          rfl
    · intro block r hb hc hr
      simp only [longestClosedRun]
      rcases List.infix_cons_iff.mp hb with hp | hi
      · have := leadingClosedRun_of_prefix block (x :: rest) r hp hc hr
        omega
      · have := hmax block r hi hc hr
        omega

/-! ## The counters that reach the `Stat` -/

theorem finalCounters_completedDays (l : List HabitTrackRecord) :
    (finalCounters l).completedDays = l.countP (fun r => r.Completed) := by
  have h := foldl_completedDays l ScanState.init
  unfold finalCounters setFinalStreak scanRecords
  split_ifs
  · simpa [ScanState.init] using h
  · simpa [ScanState.init] using h

theorem finalCounters_longestStreak (l : List HabitTrackRecord) :
    (finalCounters l).longestStreak = longestRun l := by
  have h := foldl_longestStreak l ScanState.init
  have hle := leadingRun_le_longestRun l
  have hls : (finalCounters l).longestStreak
      = (l.foldl scanStep ScanState.init).longestStreak := by
    unfold finalCounters setFinalStreak scanRecords
    split_ifs <;> rfl
  rw [hls, h]
  simp only [ScanState.init]
  split_ifs <;> omega

theorem finalCounters_streak (l : List HabitTrackRecord) :
    (finalCounters l).streak = max (longestClosedRun l) (trailingRun l) := by
  have h := foldl_streak l ScanState.init
  have hcur := scanRecords_currentStreak l
  have hle := leadingClosedRun_le_longestClosedRun l
  have hst : (scanRecords l).streak = longestClosedRun l := by
    unfold scanRecords
    rw [h]
    unfold leadingClosedRun at hle
    simp only [ScanState.init]
    split_ifs at hle ⊢ <;> omega
  unfold finalCounters setFinalStreak
  split_ifs with hgt
  · show (scanRecords l).currentStreak = _
    rw [hst, hcur] at hgt
    rw [hcur]
    omega
  · rw [hst, hcur] at hgt
    rw [hst]
    omega

theorem finalCounters_streak_eq_longestRun (l : List HabitTrackRecord) :
    (finalCounters l).streak = longestRun l := by
  rw [finalCounters_streak, longestRun_eq_max]

/-! ## The success rate on the values that occur -/

set_option maxRecDepth 100000 in
theorem successRate_zero : successRate 0 = ⟨0, 0⟩ := by decide

set_option maxRecDepth 100000 in
theorem successRate_seven : successRate 7 = ⟨7036874417766400, -46⟩ := by decide

theorem successRate_zero_toRat : (successRate 0).toRat = 0 := by
  rw [successRate_zero]
  norm_num [Float64.toRat]

theorem successRate_seven_toRat : (successRate 7).toRat = 100 := by
  rw [successRate_seven]
  norm_num [Float64.toRat]

/-! ## `UpdateStats` and the database -/

/-- When its two database statements succeed, the method `UpdateStats` returns
the `Stat` built from the fetched records, with the identifier the store
assigned: the calculation in between has no way to fail. -/
theorem UpdateStats_ok (now : Time)
    (getTracking : Int → Time → Time → Except String (List HabitTrackRecord))
    (upsertStat : Stat → Except String Int) (habitID userID : Int)
    (records : List HabitTrackRecord) (id : Int)
    (hfetch : getTracking habitID (windowStart now) (windowEnd now) = .ok records)
    (hstore : upsertStat (buildStat now habitID userID records) = .ok id) :
    UpdateStats now getTracking upsertStat habitID userID
      = .ok { buildStat now habitID userID records with ID := id } := by
  unfold UpdateStats
  rw [hfetch]
  simp only [hstore]

/-! ## Claims about the scan -/

/-- C1: for every sequence of tracking records, the `LongestStreak` that
`UpdateStats` computes is the length of the longest contiguous block of completed
records of the sequence, a block that runs up to the end included; it is 0 when
no record is completed, the empty block being the only one. -/
theorem UpdateStats_longestStreak_longest_block (now : Time) (habitID userID : Int)
    (records : List HabitTrackRecord) :
    IsLongestCompletedBlock records (buildStat now habitID userID records).LongestStreak ∧
      ((∀ r ∈ records, r.Completed = false) →
        (buildStat now habitID userID records).LongestStreak = 0) ∧
      trailingRun records ≤ (buildStat now habitID userID records).LongestStreak := by
  have hspec : IsLongestCompletedBlock records (finalCounters records).longestStreak := by
    rw [finalCounters_longestStreak]
    exact longestRun_isLongestCompletedBlock records
  refine ⟨hspec, ?_, ?_⟩
  · intro hnone
    obtain ⟨⟨block, hb, hc, hlen⟩, _⟩ := hspec
    show (finalCounters records).longestStreak = 0
    rw [← hlen]
    cases block with
    | nil => rfl
    | cons x xs =>
      have hx : x ∈ records := hb.subset (List.mem_cons_self _ _)
      have h1 := hc x (List.mem_cons_self _ _)
      rw [hnone x hx] at h1
      cases h1
  · show trailingRun records ≤ (finalCounters records).longestStreak
    rw [finalCounters_longestStreak, longestRun_eq_max]
    exact Nat.le_max_right _ _

/-- C2, as stated, fails: for the single completed record the run reaches the end
of the sequence with no record after it, the longest closed run is 0, and yet the
`Streak` that `UpdateStats` computes is 1. -/
theorem UpdateStats_streak_counts_open_run :
    IsLongestClosedBlock [sampleRecord 0 true] 0 ∧
      longestClosedRun [sampleRecord 0 true] = 0 ∧
      (buildStat sampleNow 1 1 [sampleRecord 0 true]).Streak = 1 ∧
      (buildStat sampleNow 1 1 [sampleRecord 0 true]).Streak
        ≠ longestClosedRun [sampleRecord 0 true] := by
  have h0 : longestClosedRun [sampleRecord 0 true] = 0 := by decide
  have hspec := longestClosedRun_isLongestClosedBlock [sampleRecord 0 true]
  rw [h0] at hspec
  refine ⟨hspec, h0, by decide, by decide⟩

/-- C2, amended: for every sequence of tracking records, the `Streak` that
`UpdateStats` computes is the length of the longest run of consecutive completed
records, the final run that no record closes included: it is never less than the
run at the end of the sequence. -/
theorem UpdateStats_streak_longest_block (now : Time) (habitID userID : Int)
    (records : List HabitTrackRecord) :
    IsLongestCompletedBlock records (buildStat now habitID userID records).Streak ∧
      trailingRun records ≤ (buildStat now habitID userID records).Streak := by
  show IsLongestCompletedBlock records (finalCounters records).streak ∧
    trailingRun records ≤ (finalCounters records).streak
  constructor
  · rw [finalCounters_streak_eq_longestRun]
    exact longestRun_isLongestCompletedBlock records
  · rw [finalCounters_streak]
    exact Nat.le_max_right _ _

/-- C3: for every sequence of tracking records, the `Streak` that `UpdateStats`
computes is the larger of the longest run closed by a record that is not completed
and the run at the end of the sequence, the two being what `longestClosedRun` and
`trailingRun` compute; `[complete, complete, incomplete,
complete]` gives streak 2 and longest streak 2, and `[incomplete, complete,
complete]` gives streak 2 and longest streak 2. -/
theorem UpdateStats_streak_max_closed_trailing :
    (∀ (now : Time) (habitID userID : Int) (records : List HabitTrackRecord),
      (buildStat now habitID userID records).Streak
          = max (longestClosedRun records) (trailingRun records) ∧
        IsLongestClosedBlock records (longestClosedRun records) ∧
        IsTrailingBlock records (trailingRun records)) ∧
    ((buildStat sampleNow 1 1 [sampleRecord 0 true, sampleRecord 1 true,
        sampleRecord 2 false, sampleRecord 3 true]).Streak = 2 ∧
      (buildStat sampleNow 1 1 [sampleRecord 0 true, sampleRecord 1 true,
        sampleRecord 2 false, sampleRecord 3 true]).LongestStreak = 2) ∧
    ((buildStat sampleNow 1 1 [sampleRecord 0 false, sampleRecord 1 true,
        sampleRecord 2 true]).Streak = 2 ∧
      (buildStat sampleNow 1 1 [sampleRecord 0 false, sampleRecord 1 true,
        sampleRecord 2 true]).LongestStreak = 2) := by
  refine ⟨?_, ⟨by decide, by decide⟩, ⟨by decide, by decide⟩⟩
  intro now habitID userID records
  exact ⟨finalCounters_streak records, longestClosedRun_isLongestClosedBlock records,
    trailingRun_isTrailingBlock records⟩

/-- C4 at its failing input: for `[complete, incomplete]` no completed record
stands at the end of the sequence, so the current streak is 0, and `UpdateStats`
stores `Streak = 1`. -/
theorem UpdateStats_streak_not_current :
    IsTrailingBlock [sampleRecord 0 true, sampleRecord 1 false] 0 ∧
      trailingRun [sampleRecord 0 true, sampleRecord 1 false] = 0 ∧
      (buildStat sampleNow 1 1 [sampleRecord 0 true, sampleRecord 1 false]).Streak = 1 := by
  have h0 : trailingRun [sampleRecord 0 true, sampleRecord 1 false] = 0 := by decide
  have hspec := trailingRun_isTrailingBlock [sampleRecord 0 true, sampleRecord 1 false]
  rw [h0] at hspec
  refine ⟨hspec, h0, by decide⟩

theorem longestRun_of_allCompleted (l : List HabitTrackRecord) (h : AllCompleted l) :
    longestRun l = l.length := by
  obtain ⟨⟨w, hw, _, hwl⟩, hmax⟩ := longestRun_isLongestCompletedBlock l
  have h1 : l.length ≤ longestRun l := hmax l (List.infix_refl l) h
  have h2 : w.length ≤ l.length := hw.length_le
  omega

theorem countP_of_allCompleted (l : List HabitTrackRecord) (h : AllCompleted l) :
    l.countP (fun r => r.Completed) = l.length :=
  List.countP_eq_length.mpr h

/-- C5: when every record of the sequence is completed, `UpdateStats` computes
`CompletedDays`, `Streak` and `LongestStreak` equal to the number `n` of records;
for `n = 7` all three are 7 and the success rate is exactly 100. -/
theorem UpdateStats_all_completed (now : Time) (habitID userID : Int)
    (records : List HabitTrackRecord) (h : AllCompleted records) :
    (buildStat now habitID userID records).CompletedDays = records.length ∧
      (buildStat now habitID userID records).Streak = records.length ∧
      (buildStat now habitID userID records).LongestStreak = records.length ∧
      (records.length = 7 →
        (buildStat now habitID userID records).CompletedDays = 7 ∧
        (buildStat now habitID userID records).Streak = 7 ∧
        (buildStat now habitID userID records).LongestStreak = 7 ∧
        (buildStat now habitID userID records).SuccessRate.toRat = 100) := by
  have hc : (finalCounters records).completedDays = records.length := by
    rw [finalCounters_completedDays, countP_of_allCompleted records h]
  have hs : (finalCounters records).streak = records.length := by
    rw [finalCounters_streak_eq_longestRun, longestRun_of_allCompleted records h]
  have hl : (finalCounters records).longestStreak = records.length := by
    rw [finalCounters_longestStreak, longestRun_of_allCompleted records h]
  refine ⟨hc, hs, hl, ?_⟩
  intro h7
  refine ⟨hc.trans h7, hs.trans h7, hl.trans h7, ?_⟩
  show (successRate (finalCounters records).completedDays).toRat = 100
  rw [hc, h7]
  exact successRate_seven_toRat

/-- C5 on seven completed records. -/
theorem UpdateStats_all_completed_witness :
    AllCompleted ((List.range 7).map fun (i : Nat) => sampleRecord i true) ∧
      (buildStat sampleNow 1 1 ((List.range 7).map fun (i : Nat) => sampleRecord i true)).CompletedDays
        = ((List.range 7).map fun (i : Nat) => sampleRecord i true).length ∧
      (buildStat sampleNow 1 1 ((List.range 7).map fun (i : Nat) => sampleRecord i true)).Streak
        = ((List.range 7).map fun (i : Nat) => sampleRecord i true).length ∧
      (buildStat sampleNow 1 1 ((List.range 7).map fun (i : Nat) => sampleRecord i true)).LongestStreak
        = ((List.range 7).map fun (i : Nat) => sampleRecord i true).length ∧
      (((List.range 7).map fun (i : Nat) => sampleRecord i true).length = 7 →
        (buildStat sampleNow 1 1
            ((List.range 7).map fun (i : Nat) => sampleRecord i true)).CompletedDays = 7 ∧
        (buildStat sampleNow 1 1 ((List.range 7).map fun (i : Nat) => sampleRecord i true)).Streak = 7 ∧
        (buildStat sampleNow 1 1
            ((List.range 7).map fun (i : Nat) => sampleRecord i true)).LongestStreak = 7 ∧
        (buildStat sampleNow 1 1
            ((List.range 7).map fun (i : Nat) => sampleRecord i true)).SuccessRate.toRat = 100) :=
  have h : AllCompleted ((List.range 7).map fun (i : Nat) => sampleRecord i true) := by
    intro r hr
    simp only [List.mem_map] at hr
    obtain ⟨i, _, rfl⟩ := hr
    rfl
  ⟨h, UpdateStats_all_completed sampleNow 1 1 _ h⟩

/-- C6: when the fetch yields the empty sequence and the store accepts the
row, `UpdateStats` returns a `Stat`, not an error, with `CompletedDays = 0`,
`Streak = 0`, `LongestStreak = 0`, success rate 0 and `TotalDays = 7`. -/
theorem UpdateStats_empty (now : Time)
    (getTracking : Int → Time → Time → Except String (List HabitTrackRecord))
    (upsertStat : Stat → Except String Int) (habitID userID id : Int)
    (hfetch : getTracking habitID (windowStart now) (windowEnd now) = .ok [])
    (hstore : upsertStat (buildStat now habitID userID []) = .ok id) :
    ∃ stat, UpdateStats now getTracking upsertStat habitID userID = .ok stat ∧
      stat.CompletedDays = 0 ∧ stat.Streak = 0 ∧ stat.LongestStreak = 0 ∧
      stat.SuccessRate.toRat = 0 ∧ stat.SuccessRate = ⟨0, 0⟩ ∧ stat.TotalDays = 7 := by
  refine ⟨_, UpdateStats_ok now getTracking upsertStat habitID userID [] id hfetch hstore,
    rfl, rfl, rfl, ?_, ?_, rfl⟩
  · exact successRate_zero_toRat
  · exact successRate_zero

/-- C6 with a store that holds no record and assigns the identifier 1. -/
theorem UpdateStats_empty_witness :
    ∃ stat, UpdateStats sampleNow (fun _ _ _ => .ok []) (fun _ => .ok 1) 1 1 = .ok stat ∧
      stat.CompletedDays = 0 ∧ stat.Streak = 0 ∧ stat.LongestStreak = 0 ∧
      stat.SuccessRate.toRat = 0 ∧ stat.SuccessRate = ⟨0, 0⟩ ∧ stat.TotalDays = 7 :=
  UpdateStats_empty sampleNow (fun _ _ _ => .ok []) (fun _ => .ok 1) 1 1 1 rfl rfl

/-- C7: for every sequence of tracking records, the `CompletedDays` that
`UpdateStats` computes is the number of records whose `Completed` is true: it is
the length of the sequence once the records that are not completed are removed. -/
theorem UpdateStats_completedDays_count (now : Time) (habitID userID : Int)
    (records : List HabitTrackRecord) :
    (buildStat now habitID userID records).CompletedDays
        = records.countP (fun r => r.Completed) ∧
      (buildStat now habitID userID records).CompletedDays
        = (records.filter fun r => r.Completed).length := by
  have h := finalCounters_completedDays records
  refine ⟨h, ?_⟩
  rw [← List.countP_eq_length_filter]
  exact h

/-! ## The window -/

theorem windowEnd_abs (now : Time) :
    (windowEnd now).abs = now.abs - now.abs % 86400000000000 := by
  simp [windowEnd, Time.Truncate, Hour]

theorem windowEnd_loc (now : Time) : (windowEnd now).loc = now.loc := by
  simp [windowEnd, Time.Truncate, Hour]

/-- In a location without transitions `time.Date` subtracts the one offset. -/
theorem fromWall_of_fixed (l : Location) (h : l.tx = []) (unix : Int) :
    l.fromWall unix = unix - l.offset := by
  unfold Location.fromWall Location.lookup
  rw [h]
  simp only [lookupFrom]
  by_cases h0 : l.offset = 0
  · simp [h0]
  · simp [h0]

/-- In a location without transitions the window starts six times 24 hours
before its end. -/
theorem windowStart_abs (now : Time) (h : now.loc.tx = []) :
    (windowStart now).abs = (windowEnd now).abs - 6 * 86400000000000 := by
  have hloc : (windowEnd now).loc.tx = [] := by rw [windowEnd_loc]; exact h
  simp only [windowStart, Time.AddDateDays]
  rw [fromWall_of_fixed _ hloc]
  simp only [Location.lookup, hloc, lookupFrom, Hour]
  omega

/-- The window in a location whose offset never changes: the end of the window
is the time truncated to a multiple of 24 hours, the start is six days earlier
and again a multiple of 24 hours, and the multiples of 24 hours from `startDate`
to `endDate` inclusive are the seven instants `startDate + i * 24h` with `i < 7`. -/
theorem window_of_fixed_zone (now : Time) (h : now.loc.tx = []) :
    (windowEnd now).abs % (24 * Hour) = 0 ∧
      (windowEnd now).abs ≤ now.abs ∧ now.abs < (windowEnd now).abs + 24 * Hour ∧
      (windowStart now).abs = (windowEnd now).abs - 6 * (24 * Hour) ∧
      (windowStart now).abs % (24 * Hour) = 0 ∧
      (∀ t : Int,
        ((windowStart now).abs ≤ t ∧ t ≤ (windowEnd now).abs ∧ t % (24 * Hour) = 0) ↔
          ∃ i : Nat, i < 7 ∧ t = (windowStart now).abs + i * (24 * Hour)) := by
  have he := windowEnd_abs now
  have hs := windowStart_abs now h
  have hday : 24 * Hour = 86400000000000 := by norm_num [Hour]
  rw [hday]
  refine ⟨by omega, by omega, by omega, by omega, by omega, ?_⟩
  intro t
  constructor
  · rintro ⟨h1, h2, h3⟩
    have hcases : t = (windowStart now).abs + 0 * 86400000000000
        ∨ t = (windowStart now).abs + 1 * 86400000000000
        ∨ t = (windowStart now).abs + 2 * 86400000000000
        ∨ t = (windowStart now).abs + 3 * 86400000000000
        ∨ t = (windowStart now).abs + 4 * 86400000000000
        ∨ t = (windowStart now).abs + 5 * 86400000000000
        ∨ t = (windowStart now).abs + 6 * 86400000000000 := by omega
    rcases hcases with h | h | h | h | h | h | h
    · exact ⟨0, by omega, by rw [h]; norm_num⟩
    · exact ⟨1, by omega, by rw [h]; norm_num⟩
    · exact ⟨2, by omega, by rw [h]; norm_num⟩
    · exact ⟨3, by omega, by rw [h]; norm_num⟩
    · exact ⟨4, by omega, by rw [h]; norm_num⟩
    · exact ⟨5, by omega, by rw [h]; norm_num⟩
    · exact ⟨6, by omega, by rw [h]; norm_num⟩
  · rintro ⟨i, hi, rfl⟩
    refine ⟨by omega, by omega, by omega⟩

theorem springNow_windowEnd : windowEnd springNow = ⟨739684 * (24 * Hour), NewYork⟩ := by
  decide

theorem springNow_windowStart :
    windowStart springNow = ⟨739678 * (24 * Hour) + 1 * Hour, NewYork⟩ := by
  decide

theorem autumnNow_windowStart :
    windowStart autumnNow = ⟨739915 * (24 * Hour) + 23 * Hour, NewYork⟩ := by
  decide

/-- C8 at its failing input: the server runs in `America/New_York` and the time is
noon of 2026-03-10, two days after the clocks were set forward. The end of the
window is 2026-03-10 00:00 UTC, `now` truncated to a multiple of 24 hours, and
`TotalDays` is 7; but `AddDate(0, 0, -6)` keeps the wall clock reading, 20:00 in
New York, so the start of the window is 2026-03-04 01:00 UTC: 143 hours before
the end and not a multiple of 24 hours. The window holds six multiples of 24
hours, not seven, and the record dated 2026-03-04 00:00 UTC, the start of the
seventh day back, is not fetched, while in UTC the same record is. At noon of
2026-11-03, two days after the clocks were set back, the window is 145 hours
long. -/
theorem UpdateStats_window_spring_forward :
    (windowEnd springNow).abs = 739684 * (24 * Hour) ∧
      (windowEnd springNow).abs ≤ springNow.abs ∧
      springNow.abs < (windowEnd springNow).abs + 24 * Hour ∧
      (windowStart springNow).abs = 739678 * (24 * Hour) + 1 * Hour ∧
      (windowStart springNow).abs = (windowEnd springNow).abs - 143 * Hour ∧
      (windowStart springNow).abs ≠ (windowEnd springNow).abs - 6 * (24 * Hour) ∧
      (windowStart springNow).abs % (24 * Hour) ≠ 0 ∧
      (∀ t : Int,
        ((windowStart springNow).abs ≤ t ∧ t ≤ (windowEnd springNow).abs
            ∧ t % (24 * Hour) = 0) ↔
          ∃ i : Nat, i < 6 ∧ t = (739679 + (i : Int)) * (24 * Hour)) ∧
      (buildStat springNow 1 7 []).TotalDays = 7 ∧
      fetchedRecords springNow [sampleRecord 739678 true] 1 = [] ∧
      fetchedRecords ⟨springNow.abs, UTC⟩ [sampleRecord 739678 true] 1
        = [sampleRecord 739678 true] ∧
      (windowStart autumnNow).abs = (windowEnd autumnNow).abs - 145 * Hour := by
  have he : (windowEnd springNow).abs = 739684 * 86400000000000 := by
    rw [springNow_windowEnd]; rfl
  have hs : (windowStart springNow).abs = 739678 * 86400000000000 + 3600000000000 := by
    rw [springNow_windowStart]; rfl
  have hnow : springNow.abs = 739684 * 86400000000000 + 16 * 3600000000000 := rfl
  have hday : 24 * Hour = 86400000000000 := by norm_num [Hour]
  have hhour : Hour = 3600000000000 := rfl
  refine ⟨?_, ?_, ?_, ?_, ?_, ?_, ?_, ?_, rfl, by decide, by decide, ?_⟩
  rotate_right
  · rw [autumnNow_windowStart]
    decide
  · rw [he, hday]
  · rw [he, hnow]; omega
  · rw [he, hnow, hday]; omega
  · rw [hs, hday, hhour]; omega
  · rw [hs, he, hhour]; omega
  · rw [hs, he, hday]; omega
  · rw [hs, hday]; omega
  · intro t
    rw [hs, he, hday]
    constructor
    · rintro ⟨h1, h2, h3⟩
      have hcases : t = (739679 + 0) * 86400000000000
          ∨ t = (739679 + 1) * 86400000000000
          ∨ t = (739679 + 2) * 86400000000000
          ∨ t = (739679 + 3) * 86400000000000
          ∨ t = (739679 + 4) * 86400000000000
          ∨ t = (739679 + 5) * 86400000000000 := by omega
      rcases hcases with h | h | h | h | h | h
      · exact ⟨0, by omega, by rw [h]; norm_num⟩
      · exact ⟨1, by omega, by rw [h]; norm_num⟩
      · exact ⟨2, by omega, by rw [h]; norm_num⟩
      · exact ⟨3, by omega, by rw [h]; norm_num⟩
      · exact ⟨4, by omega, by rw [h]; norm_num⟩
      · exact ⟨5, by omega, by rw [h]; norm_num⟩
    · rintro ⟨i, hi, rfl⟩
      refine ⟨by omega, by omega, by omega⟩

/-! ## The success rate -/

set_option maxRecDepth 100000 in
theorem successRate_one : successRate 1 = ⟨8042142191733028, -49⟩ := by decide

set_option maxRecDepth 100000 in
theorem successRate_two : successRate 2 = ⟨8042142191733028, -48⟩ := by decide

set_option maxRecDepth 100000 in
theorem successRate_three : successRate 3 = ⟨6031606643799771, -47⟩ := by decide

set_option maxRecDepth 100000 in
theorem successRate_four : successRate 4 = ⟨8042142191733028, -47⟩ := by decide

set_option maxRecDepth 100000 in
theorem successRate_five : successRate 5 = ⟨5026338869833143, -46⟩ := by decide

set_option maxRecDepth 100000 in
theorem successRate_six : successRate 6 = ⟨6031606643799771, -46⟩ := by decide

set_option maxRecDepth 100000 in
theorem float64_totalDays : Float64.ofInt totalDays = ⟨7881299347898368, -50⟩ := by decide

theorem float64_totalDays_toRat : (Float64.ofInt totalDays).toRat = 7 := by
  rw [float64_totalDays]
  norm_num [Float64.toRat]

theorem buildStat_successRate (now : Time) (habitID userID : Int)
    (records : List HabitTrackRecord) :
    (buildStat now habitID userID records).SuccessRate
      = successRate (buildStat now habitID userID records).CompletedDays := rfl

theorem countP_completed_le_length (l : List HabitTrackRecord) :
    l.countP (fun r => r.Completed) ≤ l.length :=
  List.countP_le_length _

/-- The success rate for each number of completed days that seven records allow:
it is within `2 ^ (-47)` of the exact quotient, between 0 and 100, and exact only
at 0 and at 7. -/
theorem successRate_le_seven (c : Nat) (hc : c ≤ 7) :
    0 ≤ (successRate c).toRat ∧ (successRate c).toRat ≤ 100 ∧
      |(successRate c).toRat - (c : ℚ) / 7 * 100| < 1 / 2 ^ 47 ∧
      ((successRate c).toRat = (c : ℚ) / 7 * 100 ↔ c = 0 ∨ c = 7) := by
  interval_cases c
  · rw [successRate_zero]
    norm_num [Float64.toRat]
  · rw [successRate_one]
    norm_num [Float64.toRat, abs_lt]
  · rw [successRate_two]
    norm_num [Float64.toRat, abs_lt]
  · rw [successRate_three]
    norm_num [Float64.toRat, abs_lt]
  · rw [successRate_four]
    norm_num [Float64.toRat, abs_lt]
  · rw [successRate_five]
    norm_num [Float64.toRat, abs_lt]
  · rw [successRate_six]
    norm_num [Float64.toRat, abs_lt]
  · rw [successRate_seven]
    norm_num [Float64.toRat, abs_lt]

/-- C9, as stated, fails: for one completed record the success rate that
`UpdateStats` computes is the `float64` value `8042142191733028 / 2 ^ 49`, which
is not the rational number `1 / 7 * 100`. -/
theorem UpdateStats_successRate_inexact :
    (buildStat sampleNow 1 1 [sampleRecord 0 true]).CompletedDays = 1 ∧
      (buildStat sampleNow 1 1 [sampleRecord 0 true]).SuccessRate.toRat
        = 8042142191733028 / 2 ^ 49 ∧
      (buildStat sampleNow 1 1 [sampleRecord 0 true]).SuccessRate.toRat
        ≠ ((buildStat sampleNow 1 1 [sampleRecord 0 true]).CompletedDays : ℚ) / 7 * 100 := by
  have hc : (buildStat sampleNow 1 1 [sampleRecord 0 true]).CompletedDays = 1 := by decide
  have hs : (buildStat sampleNow 1 1 [sampleRecord 0 true]).SuccessRate
      = ⟨8042142191733028, -49⟩ := by
    rw [buildStat_successRate, hc]
    exact successRate_one
  refine ⟨hc, ?_, ?_⟩
  · rw [hs]
    norm_num [Float64.toRat]
  · rw [hs, hc]
    norm_num [Float64.toRat]

/-- C9, amended: for every sequence of at most 7 tracking records, the success rate
that `UpdateStats` computes is the `float64` result of
`float64(completedDays) / float64(7) * 100.0`; it lies between 0 and 100
inclusive, differs from the rational number `completedDays / 7 * 100` by less than
`2 ^ (-47)`, and equals it exactly when `completedDays` is 0 or 7, and only then;
the divisor is `float64(7) = 7`, never zero. -/
theorem UpdateStats_successRate_bounds (now : Time) (habitID userID : Int)
    (records : List HabitTrackRecord) (hlen : records.length ≤ 7) :
    (buildStat now habitID userID records).SuccessRate
        = Float64.mul
            (Float64.div (Float64.ofInt (buildStat now habitID userID records).CompletedDays)
              (Float64.ofInt 7))
            (Float64.ofInt 100) ∧
      0 ≤ (buildStat now habitID userID records).SuccessRate.toRat ∧
      (buildStat now habitID userID records).SuccessRate.toRat ≤ 100 ∧
      |(buildStat now habitID userID records).SuccessRate.toRat
          - ((buildStat now habitID userID records).CompletedDays : ℚ) / 7 * 100| < 1 / 2 ^ 47 ∧
      ((buildStat now habitID userID records).SuccessRate.toRat
          = ((buildStat now habitID userID records).CompletedDays : ℚ) / 7 * 100 ↔
        (buildStat now habitID userID records).CompletedDays = 0 ∨
          (buildStat now habitID userID records).CompletedDays = 7) ∧
      (Float64.ofInt 7).toRat = 7 ∧ (Float64.ofInt 7).toRat ≠ 0 := by
  have hc : (finalCounters records).completedDays ≤ 7 := by
    rw [finalCounters_completedDays]
    exact le_trans (countP_completed_le_length records) hlen
  obtain ⟨h0, h100, herr, hex⟩ := successRate_le_seven _ hc
  have h7 : (Float64.ofInt 7).toRat = 7 := float64_totalDays_toRat
  refine ⟨rfl, h0, h100, herr, hex, h7, ?_⟩
  rw [h7]
  norm_num

/-- C9, amended, on three records of which two are completed. -/
theorem UpdateStats_successRate_bounds_witness :
    [sampleRecord 0 true, sampleRecord 1 false, sampleRecord 2 true].length ≤ 7 ∧
      0 ≤ (buildStat sampleNow 1 1
          [sampleRecord 0 true, sampleRecord 1 false, sampleRecord 2 true]).SuccessRate.toRat ∧
      (buildStat sampleNow 1 1
          [sampleRecord 0 true, sampleRecord 1 false, sampleRecord 2 true]).SuccessRate.toRat
        ≤ 100 :=
  ⟨by decide,
    (UpdateStats_successRate_bounds sampleNow 1 1
      [sampleRecord 0 true, sampleRecord 1 false, sampleRecord 2 true] (by decide)).2.1,
    (UpdateStats_successRate_bounds sampleNow 1 1
      [sampleRecord 0 true, sampleRecord 1 false, sampleRecord 2 true] (by decide)).2.2.1⟩

/-! ## Days without a record -/

/-- Filling the days without a record with records that are not completed keeps
the number of completed records and lengthens no run. -/
theorem fill_counts (f : Time → Option HabitTrackRecord) (blank : Time → HabitTrackRecord)
    (hblank : ∀ d, (blank d).Completed = false) (ds : List Time) :
    (ds.map fun d => (f d).getD (blank d)).countP (fun r => r.Completed)
        = (ds.filterMap f).countP (fun r => r.Completed) ∧
      leadingRun (ds.map fun d => (f d).getD (blank d)) ≤ leadingRun (ds.filterMap f) ∧
      longestRun (ds.map fun d => (f d).getD (blank d)) ≤ longestRun (ds.filterMap f) := by
  induction ds with
  | nil => simp [leadingRun, longestRun]
  | cons d ds ih =>
    obtain ⟨ih1, ih2, ih3⟩ := ih
    cases hfd : f d with
    | none =>
      rw [List.map_cons, List.filterMap_cons_none hfd, hfd, Option.getD_none]
      have hle := leadingRun_le_longestRun (ds.filterMap f)
      refine ⟨?_, ?_, ?_⟩
      · rw [List.countP_cons, hblank d, ih1]
        simp
      · rw [leadingRun_cons_skipped _ _ (hblank d)]
        exact Nat.zero_le _
      · simp only [longestRun, leadingRun_cons_skipped _ _ (hblank d)]
        omega
    | some r =>
      rw [List.map_cons, List.filterMap_cons_some hfd, hfd, Option.getD_some]
      refine ⟨?_, ?_, ?_⟩
      · rw [List.countP_cons, List.countP_cons, ih1]
      · cases hr : r.Completed
        · rw [leadingRun_cons_skipped _ _ hr, leadingRun_cons_skipped _ _ hr]
        · rw [leadingRun_cons_completed _ _ hr, leadingRun_cons_completed _ _ hr]
          omega
      · cases hr : r.Completed
        · simp only [longestRun, leadingRun_cons_skipped _ _ hr]
          omega
        · simp only [longestRun, leadingRun_cons_completed _ _ hr]
          omega

theorem recordOn_nil (day : Time) : recordOn [] day = none := rfl

theorem recordOn_cons_self (r : HabitTrackRecord) (rs : List HabitTrackRecord) (day : Time)
    (h : dayOf r.Date = dayOf day) : recordOn (r :: rs) day = some r := by
  simp [recordOn, List.find?_cons, h]

theorem recordOn_cons_ne (r : HabitTrackRecord) (rs : List HabitTrackRecord) (day : Time)
    (h : dayOf r.Date ≠ dayOf day) : recordOn (r :: rs) day = recordOn rs day := by
  simp [recordOn, List.find?_cons, h]

theorem recordOn_eq_none_of_lt (recs : List HabitTrackRecord) (day : Time)
    (h : ∀ r ∈ recs, dayOf day < dayOf r.Date) : recordOn recs day = none := by
  unfold recordOn
  rw [List.find?_eq_none]
  intro x hx
  have := h x hx
  simp only [decide_eq_true_eq]
  omega

/-- Looking up each day of an ascending list of days in an ascending sequence of
records whose dates are among those days gives back the sequence. -/
theorem filterMap_recordOn (ds : List Time) (recs : List HabitTrackRecord)
    (hds : ds.Pairwise fun a b => dayOf a < dayOf b)
    (hrecs : recs.Pairwise fun a b => dayOf a.Date < dayOf b.Date)
    (hmem : ∀ r ∈ recs, ∃ d ∈ ds, dayOf r.Date = dayOf d) :
    ds.filterMap (recordOn recs) = recs := by
  induction ds generalizing recs with
  | nil =>
    cases recs with
    | nil => rfl
    | cons r rs =>
      obtain ⟨d, hd, _⟩ := hmem r (List.mem_cons_self _ _)
      cases hd
  | cons d ds ih =>
    rw [List.pairwise_cons] at hds
    obtain ⟨hdlt, hds'⟩ := hds
    cases recs with
    | nil =>
      rw [List.filterMap_cons_none (recordOn_nil d)]
      exact ih [] hds' List.Pairwise.nil (fun r hr => by cases hr)
    | cons r rs =>
      rw [List.pairwise_cons] at hrecs
      obtain ⟨hrlt, hrs⟩ := hrecs
      by_cases hrd : dayOf r.Date = dayOf d
      · rw [List.filterMap_cons_some (recordOn_cons_self r rs d hrd)]
        have hcongr : ds.filterMap (recordOn (r :: rs)) = ds.filterMap (recordOn rs) := by
          apply List.filterMap_congr
          intro x hx
          apply recordOn_cons_ne
          have := hdlt x hx
          omega
        rw [hcongr, ih rs hds' hrs]
        intro x hx
        obtain ⟨e, he, hxe⟩ := hmem x (List.mem_cons_of_mem _ hx)
        rcases List.mem_cons.mp he with rfl | he
        · have := hrlt x hx
          omega
        · exact ⟨e, he, hxe⟩
      · have hdr : dayOf d < dayOf r.Date := by
          obtain ⟨e, he, hre⟩ := hmem r (List.mem_cons_self _ _)
          rcases List.mem_cons.mp he with rfl | he
          · exact absurd hre hrd
          · have := hdlt e he
            omega
        have hnone : recordOn (r :: rs) d = none := by
          apply recordOn_eq_none_of_lt
          intro x hx
          rcases List.mem_cons.mp hx with rfl | hx
          · exact hdr
          · have := hrlt x hx
            omega
        rw [List.filterMap_cons_none hnone]
        apply ih (r :: rs) hds' (List.pairwise_cons.mpr ⟨hrlt, hrs⟩)
        intro x hx
        obtain ⟨e, he, hxe⟩ := hmem x hx
        rcases List.mem_cons.mp he with rfl | he
        · exfalso
          rcases List.mem_cons.mp hx with rfl | hx
          · exact hrd hxe
          · have := hrlt x hx
            omega
        · exact ⟨e, he, hxe⟩

theorem mem_GetTracking (habit_tracks : List HabitTrackRecord) (habitID : Int)
    (startDate endDate : Time) (r : HabitTrackRecord) :
    r ∈ GetTracking habit_tracks habitID startDate endDate ↔
      r ∈ habit_tracks ∧ r.HabitID = habitID ∧ startDate.abs ≤ r.Date.abs ∧
        r.Date.abs ≤ endDate.abs := by
  unfold GetTracking
  rw [List.mem_insertionSort, List.mem_filter]
  simp only [Bool.and_eq_true, decide_eq_true_eq, and_assoc]

/-- The fetched records are in ascending order of date. -/
theorem GetTracking_sorted (habit_tracks : List HabitTrackRecord) (habitID : Int)
    (startDate endDate : Time) :
    (GetTracking habit_tracks habitID startDate endDate).Pairwise
      fun a b => a.Date.abs ≤ b.Date.abs := by
  haveI : IsTotal HabitTrackRecord (fun a b => a.Date.abs ≤ b.Date.abs) :=
    ⟨fun a b => le_total a.Date.abs b.Date.abs⟩
  haveI : IsTrans HabitTrackRecord (fun a b => a.Date.abs ≤ b.Date.abs) :=
    ⟨fun _ _ _ hab hbc => le_trans hab hbc⟩
  unfold GetTracking
  exact List.sorted_insertionSort _ _

/-- With a unique key `(habit_id, date)` the fetched records are in strictly
ascending order of date. -/
theorem GetTracking_strict (habit_tracks : List HabitTrackRecord) (habitID : Int)
    (startDate endDate : Time)
    (hkey : habit_tracks.Pairwise
      fun a b => a.HabitID = b.HabitID → a.Date.abs ≠ b.Date.abs) :
    (GetTracking habit_tracks habitID startDate endDate).Pairwise
      fun a b => a.Date.abs < b.Date.abs := by
  have hsorted := GetTracking_sorted habit_tracks habitID startDate endDate
  have hmem := mem_GetTracking habit_tracks habitID startDate endDate
  have hkey' : (GetTracking habit_tracks habitID startDate endDate).Pairwise
      fun a b => a.HabitID = b.HabitID → a.Date.abs ≠ b.Date.abs := by
    unfold GetTracking
    refine (List.Perm.pairwise_iff ?_ (List.perm_insertionSort _ _)).mpr
      (List.Pairwise.filter _ hkey)
    intro x y hxy hid
    exact fun heq => hxy hid.symm heq.symm
  have hall := List.Pairwise.and_mem.mp (hsorted.and hkey')
  refine hall.imp ?_
  intro a b hab
  obtain ⟨ha, hb, hle, hne⟩ := hab
  have hida := ((hmem a).mp ha).2.1
  have hidb := ((hmem b).mp hb).2.1
  have := hne (hida.trans hidb.symm)
  omega

theorem dayOf_dayStart (l : Location) (k : Int) : dayOf ⟨k * (24 * Hour), l⟩ = k := by
  unfold dayOf
  exact Int.mul_ediv_cancel k (by norm_num [Hour])

theorem windowDays_pairwise (endDate : Time) :
    (windowDays endDate).Pairwise fun a b => dayOf a < dayOf b := by
  have hr : List.range 7 = [0, 1, 2, 3, 4, 5, 6] := by decide
  unfold windowDays
  rw [hr]
  simp only [List.map_cons, List.map_nil, List.pairwise_cons, List.mem_cons,
    List.mem_singleton, List.not_mem_nil, forall_eq_or_imp, forall_eq, dayOf_dayStart,
    IsEmpty.forall_iff, implies_true, List.Pairwise.nil, and_true]
  push_cast
  omega

theorem mem_windowDays (endDate : Time) (k : Int)
    (h1 : dayOf endDate - 6 ≤ k) (h2 : k ≤ dayOf endDate) :
    ∃ d ∈ windowDays endDate, k = dayOf d := by
  have hr : List.range 7 = [0, 1, 2, 3, 4, 5, 6] := by decide
  unfold windowDays
  rw [hr]
  simp only [List.map_cons, List.map_nil, List.mem_cons, List.mem_singleton,
    exists_eq_or_imp, exists_eq_left, List.not_mem_nil, false_and, exists_false, or_false,
    dayOf_dayStart]
  push_cast
  omega

/-- Fetched records of which no two are dated on the same day are in strictly
ascending order of day. -/
theorem GetTracking_strict_days (habit_tracks : List HabitTrackRecord) (habitID : Int)
    (startDate endDate : Time)
    (h : OneRecordPerDay (GetTracking habit_tracks habitID startDate endDate)) :
    (GetTracking habit_tracks habitID startDate endDate).Pairwise
      fun a b => dayOf a.Date < dayOf b.Date := by
  have hsorted := GetTracking_sorted habit_tracks habitID startDate endDate
  refine (hsorted.and h).imp ?_
  intro a b hab
  obtain ⟨hle, hne⟩ := hab
  have hdiv : dayOf a.Date ≤ dayOf b.Date :=
    Int.ediv_le_ediv (by norm_num [Hour]) hle
  omega

/-- When the fetched records hold at most one record per day and the window
starts no earlier than the start of the sixth day before the day of its end, the
fetched records are the records found by looking up each of the seven days. -/
theorem fetchedRecords_eq_filterMap (now : Time) (habit_tracks : List HabitTrackRecord)
    (habitID : Int)
    (h : OneRecordPerDay (fetchedRecords now habit_tracks habitID))
    (hstart : (windowEnd now).abs - 6 * (24 * Hour) ≤ (windowStart now).abs) :
    (windowDays (windowEnd now)).filterMap
        (recordOn (fetchedRecords now habit_tracks habitID))
      = fetchedRecords now habit_tracks habitID := by
  apply filterMap_recordOn _ _ (windowDays_pairwise _)
  · exact GetTracking_strict_days habit_tracks habitID _ _ h
  · intro r hr
    obtain ⟨_, _, hlo, hhi⟩ := (mem_GetTracking _ _ _ _ r).mp hr
    have he := windowEnd_abs now
    have hday : 24 * Hour = 86400000000000 := by norm_num [Hour]
    apply mem_windowDays
    · unfold dayOf
      rw [hday] at hstart ⊢
      omega
    · unfold dayOf
      rw [hday]
      omega

theorem zeroFill_length (endDate : Time) (habitID : Int)
    (records : List HabitTrackRecord) : (zeroFill endDate habitID records).length = 7 := by
  simp [zeroFill, windowDays]

/-- In a location whose offset never changes the window starts at the start of
the sixth day before the day of its end. -/
theorem windowStart_ge_of_fixed_zone (now : Time) (h : now.loc.tx = []) :
    (windowEnd now).abs - 6 * (24 * Hour) ≤ (windowStart now).abs := by
  rw [windowStart_abs now h]
  norm_num [Hour]

theorem sampleTable_fetched :
    fetchedRecords sampleNow [sampleRecord 737996 true, sampleRecord 737994 true] 1
      = [sampleRecord 737994 true, sampleRecord 737996 true] := by
  decide

/-- The table of the sample: habit 1 was completed on the first and on the third
day of the window of `sampleNow`, and has no record for the other days. -/
theorem sampleTable_oneRecordPerDay :
    OneRecordPerDay
      (fetchedRecords sampleNow [sampleRecord 737996 true, sampleRecord 737994 true] 1) := by
  rw [sampleTable_fetched]
  unfold OneRecordPerDay
  decide

theorem sampleTable_zeroFilled :
    (zeroFilledRecords sampleNow [sampleRecord 737996 true, sampleRecord 737994 true] 1).map
        (fun r => r.Completed)
      = [true, false, true, false, false, false, false] := by
  decide

/-- C10, as stated, fails: with records on the first and the third day of the
window only, both completed, the fetched records hold at most one record per day,
the fetched sequence gives `Streak = 2` and `LongestStreak = 2`, and the
zero-filled sequence of seven records gives `Streak = 1` and `LongestStreak = 1`. -/
theorem UpdateStats_gap_joins_runs :
    OneRecordPerDay
        (fetchedRecords sampleNow [sampleRecord 737996 true, sampleRecord 737994 true] 1) ∧
      (zeroFilledRecords sampleNow
          [sampleRecord 737996 true, sampleRecord 737994 true] 1).map (fun r => r.Completed)
        = [true, false, true, false, false, false, false] ∧
      (buildStat sampleNow 1 1
        (fetchedRecords sampleNow
          [sampleRecord 737996 true, sampleRecord 737994 true] 1)).Streak = 2 ∧
      (buildStat sampleNow 1 1
        (zeroFilledRecords sampleNow
          [sampleRecord 737996 true, sampleRecord 737994 true] 1)).Streak = 1 ∧
      (buildStat sampleNow 1 1
        (fetchedRecords sampleNow
          [sampleRecord 737996 true, sampleRecord 737994 true] 1)).LongestStreak = 2 ∧
      (buildStat sampleNow 1 1
        (zeroFilledRecords sampleNow
          [sampleRecord 737996 true, sampleRecord 737994 true] 1)).LongestStreak = 1 := by
  refine ⟨sampleTable_oneRecordPerDay, sampleTable_zeroFilled, by decide, by decide,
    by decide, by decide⟩

/-- C10, amended: for every table and every clock reading such that the records
fetched for the window hold at most one record per day, and the window starts no
earlier than the start of the sixth day before the day of its end, the
`CompletedDays` and the success rate that `UpdateStats` computes from the records
actually present equal those computed from the zero-filled sequence of seven
records, while `Streak` and `LongestStreak`, computed from the records present
alone, are at least those of the zero-filled sequence: a day without a record
does not end a run. The dates of the records may carry any time of day. -/
theorem UpdateStats_zeroFill (now : Time) (habitID userID : Int)
    (habit_tracks : List HabitTrackRecord)
    (h : OneRecordPerDay (fetchedRecords now habit_tracks habitID))
    (hstart : (windowEnd now).abs - 6 * (24 * Hour) ≤ (windowStart now).abs) :
    (zeroFilledRecords now habit_tracks habitID).length = 7 ∧
      (buildStat now habitID userID (fetchedRecords now habit_tracks habitID)).CompletedDays
        = (buildStat now habitID userID
            (zeroFilledRecords now habit_tracks habitID)).CompletedDays ∧
      (buildStat now habitID userID (fetchedRecords now habit_tracks habitID)).SuccessRate
        = (buildStat now habitID userID
            (zeroFilledRecords now habit_tracks habitID)).SuccessRate ∧
      (buildStat now habitID userID (zeroFilledRecords now habit_tracks habitID)).Streak
        ≤ (buildStat now habitID userID (fetchedRecords now habit_tracks habitID)).Streak ∧
      (buildStat now habitID userID (zeroFilledRecords now habit_tracks habitID)).LongestStreak
        ≤ (buildStat now habitID userID
            (fetchedRecords now habit_tracks habitID)).LongestStreak := by
  have hfm := fetchedRecords_eq_filterMap now habit_tracks habitID h hstart
  obtain ⟨hcount, _, hlong⟩ :=
    fill_counts (recordOn (fetchedRecords now habit_tracks habitID)) (blankRecord habitID)
      (fun _ => rfl) (windowDays (windowEnd now))
  rw [hfm] at hcount hlong
  have hzf : zeroFilledRecords now habit_tracks habitID
      = (windowDays (windowEnd now)).map fun d =>
          (recordOn (fetchedRecords now habit_tracks habitID) d).getD (blankRecord habitID d) :=
    rfl
  rw [← hzf] at hcount hlong
  have hcd : (finalCounters (fetchedRecords now habit_tracks habitID)).completedDays
      = (finalCounters (zeroFilledRecords now habit_tracks habitID)).completedDays := by
    rw [finalCounters_completedDays, finalCounters_completedDays, hcount]
  refine ⟨zeroFill_length _ _ _, hcd, ?_, ?_, ?_⟩
  · rw [buildStat_successRate, buildStat_successRate]
    exact congrArg successRate hcd
  · show (finalCounters _).streak ≤ (finalCounters _).streak
    rw [finalCounters_streak_eq_longestRun, finalCounters_streak_eq_longestRun]
    exact hlong
  · show (finalCounters _).longestStreak ≤ (finalCounters _).longestStreak
    rw [finalCounters_longestStreak, finalCounters_longestStreak]
    exact hlong

theorem sampleTimedTable_fetched :
    fetchedRecords sampleNow sampleTimedTable 1
      = [sampleRecord 737996 true,
          { sampleRecord 737998 true with Date := ⟨737998 * (24 * Hour) + 13 * Hour, UTC⟩ }] := by
  decide

/-- C10, amended, on a table whose second record is dated at one o'clock in the
afternoon: both records are completed, and both sequences count two completed
days. -/
theorem UpdateStats_zeroFill_witness :
    OneRecordPerDay (fetchedRecords sampleNow sampleTimedTable 1) ∧
      (windowEnd sampleNow).abs - 6 * (24 * Hour) ≤ (windowStart sampleNow).abs ∧
      (zeroFilledRecords sampleNow sampleTimedTable 1).map (fun r => r.Completed)
        = [false, false, true, false, true, false, false] ∧
      (buildStat sampleNow 1 1 (fetchedRecords sampleNow sampleTimedTable 1)).CompletedDays
        = 2 ∧
      (buildStat sampleNow 1 1 (fetchedRecords sampleNow sampleTimedTable 1)).CompletedDays
        = (buildStat sampleNow 1 1
            (zeroFilledRecords sampleNow sampleTimedTable 1)).CompletedDays :=
  have h : OneRecordPerDay (fetchedRecords sampleNow sampleTimedTable 1) := by
    rw [sampleTimedTable_fetched]
    unfold OneRecordPerDay
    decide
  ⟨h, windowStart_ge_of_fixed_zone sampleNow rfl, by decide, by decide,
    (UpdateStats_zeroFill sampleNow 1 1 sampleTimedTable h
      (windowStart_ge_of_fixed_zone sampleNow rfl)).2.1⟩

/-! ## The track handler -/

theorem trackedRecord_habitID (now : Time) (habitID : Int) (body : HabitTrackRecord) :
    (trackedRecord now habitID body).HabitID = habitID := by
  unfold trackedRecord
  simp only
  split_ifs <;> rfl

theorem trackedRecord_date_zero (now : Time) (habitID : Int) (body : HabitTrackRecord)
    (h : body.Date.abs = 0) :
    (trackedRecord now habitID body).Date = now.Truncate (24 * Hour) := by
  unfold trackedRecord Time.IsZero
  simp [h]

theorem trackedRecord_date_given (now : Time) (habitID : Int) (body : HabitTrackRecord)
    (h : body.Date.abs ≠ 0) : (trackedRecord now habitID body).Date = body.Date := by
  unfold trackedRecord Time.IsZero
  simp [h]

theorem trackedRecord_fields (now : Time) (habitID : Int) (body : HabitTrackRecord) :
    (trackedRecord now habitID body).Completed = body.Completed ∧
      (trackedRecord now habitID body).Value = body.Value ∧
      (trackedRecord now habitID body).Notes = body.Notes := by
  unfold trackedRecord
  simp only
  split_ifs <;> exact ⟨rfl, rfl, rfl⟩

/-- The handler `TrackHabit` once the user is authenticated, the identifier
parses, the habit is found and the body binds: it hands `trackedRecord` to the
repository, and answers 500 if the upsert fails and 200 with the record if it
succeeds. -/
theorem TrackHabit_run (db : Database) (now statsNow : Time) (userID habitID : Int)
    (habit : Habit) (body : HabitTrackRecord)
    (hhabit : db.habitByID habitID userID = .ok habit) :
    HabitHandler.TrackHabit db now statsNow ⟨some userID, some habitID, some body⟩
      = match db.insertTrack (trackedRecord now habitID body) with
        | .error _ =>
          (⟨500, .error "Failed to track habit"⟩,
            [.GetByID habitID userID, .TrackHabit (trackedRecord now habitID body)])
        | .ok id =>
          (⟨200, .record { trackedRecord now habitID body with ID := id }⟩,
            [.GetByID habitID userID, .TrackHabit (trackedRecord now habitID body),
              .UpdateStats habitID userID]) := by
  unfold HabitHandler.TrackHabit
  simp only [hhabit]

/-- C11: in `HabitHandler.TrackHabit`, once the user is authenticated, the habit is
found and the body binds, exactly one record is handed to the repository; its
`HabitID` is the id of the URL whatever `habit_id` the body held; its date is the
current time truncated to a multiple of 24 hours when the body carries the zero
time, and exactly the date of the body otherwise; and when the upsert succeeds
the response is 200 with that record. -/
theorem TrackHabit_record_date (db : Database) (now statsNow : Time) (userID habitID : Int)
    (habit : Habit) (body : HabitTrackRecord)
    (hhabit : db.habitByID habitID userID = .ok habit) :
    ∃ record : HabitTrackRecord,
      (∀ r, Call.TrackHabit r ∈
          (HabitHandler.TrackHabit db now statsNow ⟨some userID, some habitID, some body⟩).2
        ↔ r = record) ∧
      record.HabitID = habitID ∧
      (body.Date.abs = 0 → record.Date = now.Truncate (24 * Hour)) ∧
      (body.Date.abs = 0 → record.Date.abs = now.abs - now.abs % (24 * Hour)) ∧
      (body.Date.abs ≠ 0 → record.Date = body.Date) ∧
      record.Completed = body.Completed ∧ record.Value = body.Value ∧
      record.Notes = body.Notes ∧
      (∀ id, db.insertTrack record = .ok id →
        (HabitHandler.TrackHabit db now statsNow ⟨some userID, some habitID, some body⟩).1
          = ⟨200, .record { record with ID := id }⟩) := by
  have hrun := TrackHabit_run db now statsNow userID habitID habit body hhabit
  obtain ⟨hc, hv, hn⟩ := trackedRecord_fields now habitID body
  refine ⟨trackedRecord now habitID body, ?_, trackedRecord_habitID now habitID body,
    trackedRecord_date_zero now habitID body, ?_, trackedRecord_date_given now habitID body,
    hc, hv, hn, ?_⟩
  · intro r
    rw [hrun]
    cases db.insertTrack (trackedRecord now habitID body) <;> simp [eq_comm]
  · intro h0
    rw [trackedRecord_date_zero now habitID body h0]
    simp [Time.Truncate, Hour]
  · intro id hid
    rw [hrun, hid]

/-- C11 on the sample request, whose body gives a date. -/
theorem TrackHabit_record_date_witness :
    ∃ record : HabitTrackRecord,
      (∀ r, Call.TrackHabit r ∈
          (HabitHandler.TrackHabit sampleDatabase sampleNow sampleNow sampleTrackRequest).2
        ↔ r = record) ∧
      record.HabitID = 1 ∧
      record.Date = ⟨738000 * (24 * Hour) + 13 * Hour, UTC⟩ :=
  have h := TrackHabit_record_date sampleDatabase sampleNow sampleNow 7 1 sampleHabit
    { ID := 0, HabitID := 99, Date := ⟨738000 * (24 * Hour) + 13 * Hour, UTC⟩,
      Completed := true, Value := 0, Notes := "" } rfl
  h.elim fun record hr => ⟨record, hr.1, hr.2.1, hr.2.2.2.2.1 (by decide)⟩

/-- C13: in `HabitHandler.TrackHabit`, once the user is authenticated, the habit is
found, the body binds and the upsert of the record succeeds, the response is 200
with the stored record, `UpdateStats` is called, and the response is the same
whatever the statements inside `UpdateStats` do and whatever its clock reads:
a failure of `UpdateStats` changes neither the status nor the body. -/
theorem TrackHabit_ignores_UpdateStats (db : Database) (now statsNow : Time)
    (userID habitID : Int) (habit : Habit) (body : HabitTrackRecord) (id : Int)
    (hhabit : db.habitByID habitID userID = .ok habit)
    (hinsert : db.insertTrack (trackedRecord now habitID body) = .ok id) :
    (HabitHandler.TrackHabit db now statsNow ⟨some userID, some habitID, some body⟩).1
        = ⟨200, .record { trackedRecord now habitID body with ID := id }⟩ ∧
      Call.UpdateStats habitID userID ∈
        (HabitHandler.TrackHabit db now statsNow ⟨some userID, some habitID, some body⟩).2 ∧
      ∀ (getTracking : Int → Time → Time → Except String (List HabitTrackRecord))
        (upsertStat : Stat → Except String Int) (statsNow' : Time),
        (HabitHandler.TrackHabit
            { db with getTracking := getTracking, upsertStat := upsertStat } now statsNow'
            ⟨some userID, some habitID, some body⟩).1
          = (HabitHandler.TrackHabit db now statsNow
              ⟨some userID, some habitID, some body⟩).1 := by
  have hrun := TrackHabit_run db now statsNow userID habitID habit body hhabit
  rw [hinsert] at hrun
  refine ⟨by rw [hrun], by rw [hrun]; simp, ?_⟩
  intro getTracking upsertStat statsNow'
  have hrun' := TrackHabit_run { db with getTracking := getTracking, upsertStat := upsertStat }
    now statsNow' userID habitID habit body hhabit
  have hinsert' : ({ db with getTracking := getTracking, upsertStat := upsertStat } : Database).insertTrack
      (trackedRecord now habitID body) = .ok id := hinsert
  rw [hinsert'] at hrun'
  rw [hrun, hrun']

/-- C13 on the sample request: `UpdateStats` succeeds on the sample database and
fails when its fetch fails, and the response is the same. -/
theorem TrackHabit_ignores_UpdateStats_witness :
    UpdateStats sampleNow sampleDatabase.getTracking sampleDatabase.upsertStat 1 7
        = .ok { buildStat sampleNow 1 7 [] with ID := 1 } ∧
      UpdateStats sampleNow (fun _ _ _ => .error "driver: bad connection")
          sampleDatabase.upsertStat 1 7
        = .error "driver: bad connection" ∧
      (HabitHandler.TrackHabit
          { sampleDatabase with getTracking := fun _ _ _ => .error "driver: bad connection" }
          sampleNow sampleNow sampleTrackRequest).1
        = (HabitHandler.TrackHabit sampleDatabase sampleNow sampleNow sampleTrackRequest).1 :=
  ⟨rfl, rfl,
    (TrackHabit_ignores_UpdateStats sampleDatabase sampleNow sampleNow 7 1 sampleHabit
      { ID := 0, HabitID := 99, Date := ⟨738000 * (24 * Hour) + 13 * Hour, UTC⟩,
        Completed := true, Value := 0, Notes := "" } 1 rfl rfl).2.2
      (fun _ _ _ => .error "driver: bad connection") sampleDatabase.upsertStat sampleNow⟩

/-! ## The statistics handler -/

/-- A `Stat` that `UpdateStats` returns is the one built from the fetched records,
with the identifier the store returned. -/
theorem UpdateStats_eq_ok (now : Time)
    (getTracking : Int → Time → Time → Except String (List HabitTrackRecord))
    (upsertStat : Stat → Except String Int) (habitID userID : Int) (stat : Stat)
    (h : UpdateStats now getTracking upsertStat habitID userID = .ok stat) :
    ∃ records id, getTracking habitID (windowStart now) (windowEnd now) = .ok records ∧
      upsertStat (buildStat now habitID userID records) = .ok id ∧
      stat = { buildStat now habitID userID records with ID := id } := by
  unfold UpdateStats at h
  cases hfetch : getTracking habitID (windowStart now) (windowEnd now) with
  | error e =>
    rw [hfetch] at h
    cases h
  | ok records =>
    rw [hfetch] at h
    simp only at h
    cases hstore : upsertStat (buildStat now habitID userID records) with
    | error e =>
      rw [hstore] at h
      cases h
    | ok id =>
      rw [hstore] at h
      simp only [Except.ok.injEq] at h
      exact ⟨records, id, rfl, hstore, h.symm⟩

theorem validPeriod_eq_false_iff (period : String) :
    validPeriod period = false ↔
      period ≠ "daily" ∧ period ≠ "weekly" ∧ period ≠ "monthly" ∧ period ≠ "yearly" := by
  simp [validPeriod, and_assoc]

theorem GetStats_eq_ok (row : Except SqlError Stat) (stat : Stat) :
    GetStats row = .ok stat ↔ row = .ok stat := by
  unfold GetStats
  constructor
  · intro h
    split at h
    · simp only [Except.ok.injEq] at h
      rw [h]
    · cases h
    · cases h
  · intro h
    rw [h]

/-- The handler `GetHabitStats` once the user is authenticated, the identifier
parses and the habit is found. -/
theorem GetHabitStats_run (db : Database) (statsNow : Time) (userID habitID : Int)
    (habit : Habit) (period : Option String)
    (hhabit : db.habitByID habitID userID = .ok habit) :
    HabitHandler.GetHabitStats db statsNow ⟨some userID, some habitID, period⟩
      = if validPeriod (period.getD "weekly") = false then
          (⟨400, .error "Invalid period (use daily, weekly, monthly, or yearly)"⟩,
            [.GetByID habitID userID])
        else
          match GetStats (db.selectStat habitID userID (period.getD "weekly")) with
          | .ok stats =>
            (⟨200, .stat stats⟩,
              [.GetByID habitID userID, .GetStats habitID userID (period.getD "weekly")])
          | .error _ =>
            match UpdateStats statsNow db.getTracking db.upsertStat habitID userID with
            | .error _ =>
              (⟨500, .error "Failed to retrieve statistics"⟩,
                [.GetByID habitID userID, .GetStats habitID userID (period.getD "weekly"),
                  .UpdateStats habitID userID])
            | .ok stats =>
              (⟨200, .stat stats⟩,
                [.GetByID habitID userID, .GetStats habitID userID (period.getD "weekly"),
                  .UpdateStats habitID userID]) := by
  unfold HabitHandler.GetHabitStats requestedPeriod
  simp only [hhabit]

/-- The handler `GetHabitStats` never calls `GetStats` or `UpdateStats` before the
period has passed its test. -/
theorem GetHabitStats_invalid_calls (db : Database) (statsNow : Time) (req : StatsRequest)
    (hinvalid : validPeriod (requestedPeriod req) = false) :
    (HabitHandler.GetHabitStats db statsNow req).1.status ≠ 200 ∧
      (∀ h u p, Call.GetStats h u p ∉ (HabitHandler.GetHabitStats db statsNow req).2) ∧
      (∀ h u, Call.UpdateStats h u ∉ (HabitHandler.GetHabitStats db statsNow req).2) := by
  obtain ⟨userID, id, period⟩ := req
  unfold HabitHandler.GetHabitStats
  cases userID with
  | none => simp
  | some userID =>
    cases id with
    | none => simp
    | some habitID =>
      cases hhabit : db.habitByID habitID userID with
      | error e => simp [hhabit]
      | ok habit => simp [hhabit, hinvalid]

/-- C12 at its failing input: the sample request supplies the date one o'clock in
the afternoon of day 738000; the handler answers 200, and the one row that the
track action leaves in the empty tracking table carries that date, thirteen hours
past the start of the day, not the start of the day; the window of `UpdateStats`
at noon of the same day, which ends at the start of the day, does not fetch it. -/
theorem TrackHabit_stores_time_of_day :
    (HabitHandler.TrackHabit sampleDatabase sampleNow sampleNow sampleTrackRequest).1.status
        = 200 ∧
      tracksAfter [] 1
          (HabitHandler.TrackHabit sampleDatabase sampleNow sampleNow sampleTrackRequest).2
        = [{ ID := 1, HabitID := 1, Date := ⟨738000 * (24 * Hour) + 13 * Hour, UTC⟩,
             Completed := true, Value := 0, Notes := "" }] ∧
      (738000 * (24 * Hour) + 13 * Hour) % (24 * Hour) = 13 * Hour ∧
      (738000 * (24 * Hour) + 13 * Hour) % (24 * Hour) ≠ 0 ∧
      fetchedRecords sampleNow
          (tracksAfter [] 1
            (HabitHandler.TrackHabit sampleDatabase sampleNow sampleNow sampleTrackRequest).2)
          1
        = [] := by
  refine ⟨by decide, by decide, by decide, by decide, by decide⟩

/-- C14: in `HabitHandler.GetHabitStats` with a valid period, once the user is
authenticated and the habit is found: when `GetStats` returns a stored snapshot,
the response is 200 with that snapshot and `UpdateStats` is not called; when
`GetStats` reports `stats not found`, `UpdateStats` is called exactly once, for
this habit and user, and the response is 200 with the snapshot it returns, or 500
when it fails. -/
theorem GetHabitStats_read_through (db : Database) (statsNow : Time) (userID habitID : Int)
    (habit : Habit) (period : Option String)
    (hhabit : db.habitByID habitID userID = .ok habit)
    (hvalid : validPeriod (period.getD "weekly") = true) :
    (∀ stat, GetStats (db.selectStat habitID userID (period.getD "weekly")) = .ok stat →
      (HabitHandler.GetHabitStats db statsNow ⟨some userID, some habitID, period⟩).1
          = ⟨200, .stat stat⟩ ∧
        ∀ h u, Call.UpdateStats h u ∉
          (HabitHandler.GetHabitStats db statsNow ⟨some userID, some habitID, period⟩).2) ∧
    (GetStats (db.selectStat habitID userID (period.getD "weekly"))
        = .error "stats not found" →
      (HabitHandler.GetHabitStats db statsNow ⟨some userID, some habitID, period⟩).2.count
          (Call.UpdateStats habitID userID) = 1 ∧
        (∀ h u, Call.UpdateStats h u ∈
            (HabitHandler.GetHabitStats db statsNow ⟨some userID, some habitID, period⟩).2 →
          h = habitID ∧ u = userID) ∧
        (∀ stat, UpdateStats statsNow db.getTracking db.upsertStat habitID userID = .ok stat →
          (HabitHandler.GetHabitStats db statsNow ⟨some userID, some habitID, period⟩).1
            = ⟨200, .stat stat⟩) ∧
        (∀ err, UpdateStats statsNow db.getTracking db.upsertStat habitID userID = .error err →
          (HabitHandler.GetHabitStats db statsNow ⟨some userID, some habitID, period⟩).1
            = ⟨500, .error "Failed to retrieve statistics"⟩)) := by
  have hrun := GetHabitStats_run db statsNow userID habitID habit period hhabit
  rw [if_neg (by simp [hvalid])] at hrun
  constructor
  · intro stat hstat
    rw [hrun, hstat]
    simp
  · intro hmiss
    rw [hrun, hmiss]
    cases hupd : UpdateStats statsNow db.getTracking db.upsertStat habitID userID with
    | error e => simp [List.count_cons]
    | ok stat => simp [List.count_cons]

/-- C14 on the sample database, which holds no snapshot. -/
theorem GetHabitStats_read_through_witness :
    GetStats (sampleDatabase.selectStat 1 7 "weekly") = .error "stats not found" ∧
      (HabitHandler.GetHabitStats sampleDatabase sampleNow ⟨some 7, some 1, none⟩).2.count
        (Call.UpdateStats 1 7) = 1 :=
  ⟨rfl,
    ((GetHabitStats_read_through sampleDatabase sampleNow 7 1 sampleHabit none rfl
      (by decide)).2 rfl).1⟩

/-- C15 at its failing input: the query of `GetStats` fails with `driver: bad
connection`, which `GetStats` returns as it is, an error other than `stats not
found`; the handler calls `UpdateStats` all the same and answers 200. -/
theorem GetHabitStats_store_failure_answers_200 :
    GetStats (sampleDatabaseSelectFails.selectStat 1 7 "weekly")
        = .error "driver: bad connection" ∧
      "driver: bad connection" ≠ "stats not found" ∧
      (HabitHandler.GetHabitStats sampleDatabaseSelectFails sampleNow
          ⟨some 7, some 1, none⟩).1.status = 200 ∧
      Call.UpdateStats 1 7 ∈
        (HabitHandler.GetHabitStats sampleDatabaseSelectFails sampleNow
          ⟨some 7, some 1, none⟩).2 := by
  refine ⟨rfl, by decide, by decide, by decide⟩

/-- C16, as stated, fails: for the period `monthly` the handler signals nothing;
on the sample database, which holds no snapshot, it answers 200 with the snapshot
that `UpdateStats` computes over the weekly window, whose period is `weekly`. -/
theorem GetHabitStats_monthly_answers_weekly :
    "monthly" ≠ "weekly" ∧
      (HabitHandler.GetHabitStats sampleDatabase sampleNow ⟨some 7, some 1, some "monthly"⟩).1
        = ⟨200, .stat { buildStat sampleNow 1 7 [] with ID := 1 }⟩ ∧
      (buildStat sampleNow 1 7 []).Period = "weekly" ∧
      (buildStat sampleNow 1 7 []).StartDate = windowStart sampleNow ∧
      (buildStat sampleNow 1 7 []).EndDate = windowEnd sampleNow ∧
      (buildStat sampleNow 1 7 []).TotalDays = 7 := by
  refine ⟨by decide, rfl, rfl, rfl, rfl, rfl⟩

/-- C16, amended: once the user is authenticated and the habit is found, a period
outside the four names is answered 400; for `daily`, `monthly` and `yearly`, as
for `weekly`, no unsupported period is signalled: the response is 200 with the
snapshot `GetStats` finds for that period, and when `GetStats` reports `stats not
found`, 200 with the snapshot that `UpdateStats` computes over the weekly window,
its period being `weekly`, or 500 when `UpdateStats` fails. -/
theorem GetHabitStats_other_period (db : Database) (statsNow : Time) (userID habitID : Int)
    (habit : Habit) (period : String)
    (hhabit : db.habitByID habitID userID = .ok habit) :
    (validPeriod period = false →
      (HabitHandler.GetHabitStats db statsNow ⟨some userID, some habitID, some period⟩).1
        = ⟨400, .error "Invalid period (use daily, weekly, monthly, or yearly)"⟩) ∧
    (validPeriod period = true →
      (HabitHandler.GetHabitStats db statsNow
          ⟨some userID, some habitID, some period⟩).1.status ≠ 400 ∧
      (∀ stat, GetStats (db.selectStat habitID userID period) = .ok stat →
        (HabitHandler.GetHabitStats db statsNow ⟨some userID, some habitID, some period⟩).1
          = ⟨200, .stat stat⟩) ∧
      (∀ stat, GetStats (db.selectStat habitID userID period) = .error "stats not found" →
        UpdateStats statsNow db.getTracking db.upsertStat habitID userID = .ok stat →
        (HabitHandler.GetHabitStats db statsNow ⟨some userID, some habitID, some period⟩).1
            = ⟨200, .stat stat⟩ ∧
          stat.Period = "weekly" ∧ stat.StartDate = windowStart statsNow ∧
          stat.EndDate = windowEnd statsNow ∧ stat.TotalDays = 7) ∧
      (∀ err, GetStats (db.selectStat habitID userID period) = .error "stats not found" →
        UpdateStats statsNow db.getTracking db.upsertStat habitID userID = .error err →
        (HabitHandler.GetHabitStats db statsNow ⟨some userID, some habitID, some period⟩).1
          = ⟨500, .error "Failed to retrieve statistics"⟩)) := by
  have hrun := GetHabitStats_run db statsNow userID habitID habit (some period) hhabit
  simp only [Option.getD_some] at hrun
  constructor
  · intro hinvalid
    rw [hrun, if_pos hinvalid]
  · intro hvalid
    rw [if_neg (by simp [hvalid])] at hrun
    refine ⟨?_, ?_, ?_, ?_⟩
    · rw [hrun]
      cases GetStats (db.selectStat habitID userID period) with
      | ok stat => simp
      | error e =>
        cases UpdateStats statsNow db.getTracking db.upsertStat habitID userID <;> simp
    · intro stat hstat
      rw [hrun, hstat]
    · intro stat herr hupd
      obtain ⟨records, id, _, _, hstat⟩ := UpdateStats_eq_ok _ _ _ _ _ _ hupd
      refine ⟨?_, ?_⟩
      · rw [hrun, herr]
        simp only [hupd]
      · rw [hstat]
        exact ⟨rfl, rfl, rfl, rfl⟩
    · intro err herr hupd
      rw [hrun, herr]
      simp only [hupd]

/-- C16, amended, on the sample database with the period `monthly`: the database
holds no snapshot, `GetStats` reports `stats not found`, and the answer is 200
with the snapshot of the weekly window. -/
theorem GetHabitStats_other_period_witness :
    sampleDatabase.habitByID 1 7 = .ok sampleHabit ∧
      validPeriod "monthly" = true ∧
      GetStats (sampleDatabase.selectStat 1 7 "monthly") = .error "stats not found" ∧
      UpdateStats sampleNow sampleDatabase.getTracking sampleDatabase.upsertStat 1 7
        = .ok { buildStat sampleNow 1 7 [] with ID := 1 } ∧
      (HabitHandler.GetHabitStats sampleDatabase sampleNow
        ⟨some 7, some 1, some "monthly"⟩).1.status ≠ 400 ∧
      ((HabitHandler.GetHabitStats sampleDatabase sampleNow ⟨some 7, some 1, some "monthly"⟩).1
          = ⟨200, .stat { buildStat sampleNow 1 7 [] with ID := 1 }⟩ ∧
        ({ buildStat sampleNow 1 7 [] with ID := 1 } : Stat).Period = "weekly" ∧
        ({ buildStat sampleNow 1 7 [] with ID := 1 } : Stat).StartDate
          = windowStart sampleNow ∧
        ({ buildStat sampleNow 1 7 [] with ID := 1 } : Stat).EndDate = windowEnd sampleNow ∧
        ({ buildStat sampleNow 1 7 [] with ID := 1 } : Stat).TotalDays = 7) :=
  ⟨rfl, by decide, rfl, rfl,
    ((GetHabitStats_other_period sampleDatabase sampleNow 7 1 sampleHabit "monthly" rfl).2
      (by decide)).1,
    ((GetHabitStats_other_period sampleDatabase sampleNow 7 1 sampleHabit "monthly" rfl).2
      (by decide)).2.2.1 _ rfl rfl⟩

/-- C19: for every request whose period is none of `daily`, `weekly`, `monthly`
and `yearly`, `HabitHandler.GetHabitStats` calls neither `GetStats` nor
`UpdateStats` and does not answer 200; once the user is authenticated and the
habit is found, the answer is 400 with the message `Invalid period (use daily,
weekly, monthly, or yearly)`. A request without the query parameter has the
period `weekly`. -/
theorem GetHabitStats_invalid_period (db : Database) (statsNow : Time) (req : StatsRequest)
    (hd : requestedPeriod req ≠ "daily") (hw : requestedPeriod req ≠ "weekly")
    (hm : requestedPeriod req ≠ "monthly") (hy : requestedPeriod req ≠ "yearly") :
    (HabitHandler.GetHabitStats db statsNow req).1.status ≠ 200 ∧
      (∀ h u p, Call.GetStats h u p ∉ (HabitHandler.GetHabitStats db statsNow req).2) ∧
      (∀ h u, Call.UpdateStats h u ∉ (HabitHandler.GetHabitStats db statsNow req).2) ∧
      (∀ userID habitID habit, req.userID = some userID → req.id = some habitID →
        db.habitByID habitID userID = .ok habit →
        HabitHandler.GetHabitStats db statsNow req
          = (⟨400, .error "Invalid period (use daily, weekly, monthly, or yearly)"⟩,
              [.GetByID habitID userID])) ∧
      (∀ userID id, requestedPeriod ⟨userID, id, none⟩ = "weekly") := by
  have hinvalid : validPeriod (requestedPeriod req) = false :=
    (validPeriod_eq_false_iff _).mpr ⟨hd, hw, hm, hy⟩
  obtain ⟨h200, hget, hupd⟩ := GetHabitStats_invalid_calls db statsNow req hinvalid
  refine ⟨h200, hget, hupd, ?_, fun _ _ => rfl⟩
  intro userID habitID habit hu hi hhabit
  obtain ⟨u, i, period⟩ := req
  simp only at hu hi
  subst hu hi
  have hrun := GetHabitStats_run db statsNow userID habitID habit period hhabit
  have hinvalid' : validPeriod (period.getD "weekly") = false := hinvalid
  rw [hrun, if_pos hinvalid']

/-- C19 on the sample database with the period `hourly`. -/
theorem GetHabitStats_invalid_period_witness :
    HabitHandler.GetHabitStats sampleDatabase sampleNow ⟨some 7, some 1, some "hourly"⟩
      = (⟨400, .error "Invalid period (use daily, weekly, monthly, or yearly)"⟩,
          [.GetByID 1 7]) :=
  (GetHabitStats_invalid_period sampleDatabase sampleNow ⟨some 7, some 1, some "hourly"⟩
    (by decide) (by decide) (by decide) (by decide)).2.2.2.1 7 1 sampleHabit rfl rfl rfl

/-! ## The upsert statement -/

section Upsert

variable {α κ : Type} [DecidableEq κ] (key : α → κ) (doUpdate : α → α → α)
  (getID : α → Int) (withID : α → Int → α)

theorem insertOnConflict_found (table : List α) (freshID : Int) (row old : α)
    (h : (table.find? fun r => decide (key r = key row)) = some old) :
    insertOnConflict key doUpdate getID withID table freshID row
      = (table.map fun r => if key r = key row then doUpdate row r else r, getID old) := by
  unfold insertOnConflict
  rw [h]

theorem insertOnConflict_fresh (table : List α) (freshID : Int) (row : α)
    (h : (table.find? fun r => decide (key r = key row)) = none) :
    insertOnConflict key doUpdate getID withID table freshID row
      = (table ++ [withID row freshID], freshID) := by
  unfold insertOnConflict
  rw [h]

theorem find?_key_eq_none_iff (table : List α) (row : α) :
    (table.find? fun r => decide (key r = key row)) = none ↔ key row ∉ table.map key := by
  rw [List.find?_eq_none]
  simp only [decide_eq_true_eq, List.mem_map, not_exists, not_and]

theorem find?_key_some (table : List α) (row old : α)
    (h : (table.find? fun r => decide (key r = key row)) = some old) :
    old ∈ table ∧ key old = key row := by
  refine ⟨List.mem_of_find?_eq_some h, ?_⟩
  have := List.find?_some h
  simpa using this

/-- The keys of the table after the statement: as before when a row had the key,
and with the new key at the end otherwise. -/
theorem insertOnConflict_keys (hkey : ∀ x r, key (doUpdate x r) = key r)
    (hwk : ∀ x id, key (withID x id) = key x) (table : List α) (freshID : Int) (row : α) :
    (insertOnConflict key doUpdate getID withID table freshID row).1.map key
      = if key row ∈ table.map key then table.map key else table.map key ++ [key row] := by
  cases h : table.find? fun r => decide (key r = key row) with
  | none =>
    rw [insertOnConflict_fresh key doUpdate getID withID table freshID row h,
      if_neg ((find?_key_eq_none_iff key table row).mp h)]
    simp [hwk]
  | some old =>
    obtain ⟨hmem, hk⟩ := find?_key_some key table row old h
    rw [insertOnConflict_found key doUpdate getID withID table freshID row old h,
      if_pos (List.mem_map.mpr ⟨old, hmem, hk⟩)]
    simp only [List.map_map]
    apply List.map_congr_left
    intro r _
    simp only [Function.comp]
    split_ifs
    · exact hkey row r
    · rfl

theorem insertOnConflict_mem_keys (hkey : ∀ x r, key (doUpdate x r) = key r)
    (hwk : ∀ x id, key (withID x id) = key x) (table : List α) (freshID : Int) (row : α) :
    key row ∈ (insertOnConflict key doUpdate getID withID table freshID row).1.map key := by
  rw [insertOnConflict_keys key doUpdate getID withID hkey hwk]
  split_ifs with h
  · exact h
  · simp

/-- The statement keeps the key unique. -/
theorem insertOnConflict_nodup (hkey : ∀ x r, key (doUpdate x r) = key r)
    (hwk : ∀ x id, key (withID x id) = key x) (table : List α) (freshID : Int) (row : α)
    (hunique : (table.map key).Nodup) :
    ((insertOnConflict key doUpdate getID withID table freshID row).1.map key).Nodup := by
  rw [insertOnConflict_keys key doUpdate getID withID hkey hwk]
  split_ifs with h
  · exact hunique
  · rw [List.nodup_append]
    refine ⟨hunique, List.nodup_singleton _, ?_⟩
    intro a ha hb
    rw [List.mem_singleton] at hb
    exact h (hb ▸ ha)

/-- After the statement exactly one row has the key of the row it stored. -/
theorem insertOnConflict_count (hkey : ∀ x r, key (doUpdate x r) = key r)
    (hwk : ∀ x id, key (withID x id) = key x) (table : List α) (freshID : Int) (row : α)
    (hunique : (table.map key).Nodup) :
    ((insertOnConflict key doUpdate getID withID table freshID row).1.filter
        fun r => decide (key r = key row)).length = 1 := by
  have h := List.count_eq_one_of_mem
    (insertOnConflict_nodup key doUpdate getID withID hkey hwk table freshID row hunique)
    (insertOnConflict_mem_keys key doUpdate getID withID hkey hwk table freshID row)
  rw [List.count, List.countP_map, List.countP_eq_length_filter] at h
  rw [← h]
  congr 1

/-- A second statement for a row with the same key returns the same `id`. -/
theorem insertOnConflict_same_id (hkey : ∀ x r, key (doUpdate x r) = key r)
    (hid : ∀ x r, getID (doUpdate x r) = getID r)
    (hwk : ∀ x id, key (withID x id) = key x) (hwi : ∀ x id, getID (withID x id) = id)
    (table : List α) (freshID freshID' : Int) (row row' : α) (hrow : key row' = key row) :
    (insertOnConflict key doUpdate getID withID
        (insertOnConflict key doUpdate getID withID table freshID row).1 freshID' row').2
      = (insertOnConflict key doUpdate getID withID table freshID row).2 := by
  cases h : table.find? fun r => decide (key r = key row) with
  | none =>
    rw [insertOnConflict_fresh key doUpdate getID withID table freshID row h]
    have h2 : ((table ++ [withID row freshID]).find? fun r => decide (key r = key row'))
        = some (withID row freshID) := by
      rw [List.find?_append, hrow, h]
      simp [hwk]
    rw [insertOnConflict_found key doUpdate getID withID _ freshID' row' _ h2]
    exact hwi row freshID
  | some old =>
    obtain ⟨_, hk⟩ := find?_key_some key table row old h
    rw [insertOnConflict_found key doUpdate getID withID table freshID row old h]
    have h2 : ((table.map fun r => if key r = key row then doUpdate row r else r).find?
        fun r => decide (key r = key row')) = some (doUpdate row old) := by
      rw [List.find?_map, hrow]
      have hcomp : ((fun r => decide (key r = key row)) ∘
          fun r => if key r = key row then doUpdate row r else r)
          = fun r => decide (key r = key row) := by
        funext r
        simp only [Function.comp]
        split_ifs with hr
        · simp [hkey, hr]
        · rfl
      rw [hcomp, h]
      simp [hk]
    rw [insertOnConflict_found key doUpdate getID withID _ freshID' row' _ h2]
    exact hid row old

/-- The statement is idempotent: run again for the same row, it leaves the table
as it is and returns the same `id`. -/
theorem insertOnConflict_idempotent (hkey : ∀ x r, key (doUpdate x r) = key r)
    (hid : ∀ x r, getID (doUpdate x r) = getID r)
    (hwk : ∀ x id, key (withID x id) = key x) (hwi : ∀ x id, getID (withID x id) = id)
    (hidem : ∀ x r, doUpdate x (doUpdate x r) = doUpdate x r)
    (hwu : ∀ x id, doUpdate x (withID x id) = withID x id)
    (table : List α) (freshID freshID' : Int) (row : α) :
    insertOnConflict key doUpdate getID withID
        (insertOnConflict key doUpdate getID withID table freshID row).1 freshID' row
      = insertOnConflict key doUpdate getID withID table freshID row := by
  have hsame := insertOnConflict_same_id key doUpdate getID withID hkey hid hwk hwi table
    freshID freshID' row row rfl
  refine Prod.ext ?_ hsame
  have hmem := insertOnConflict_mem_keys key doUpdate getID withID hkey hwk table freshID row
  cases h2 : (insertOnConflict key doUpdate getID withID table freshID row).1.find?
      fun r => decide (key r = key row) with
  | none => exact absurd hmem ((find?_key_eq_none_iff key _ row).mp h2)
  | some old2 =>
    rw [insertOnConflict_found key doUpdate getID withID _ freshID' row old2 h2]
    show List.map _ _ = _
    cases h : table.find? fun r => decide (key r = key row) with
    | none =>
      rw [insertOnConflict_fresh key doUpdate getID withID table freshID row h]
      have hnot := (find?_key_eq_none_iff key table row).mp h
      rw [List.map_append]
      congr 1
      · conv_rhs => rw [← List.map_id table]
        apply List.map_congr_left
        intro r hr
        have : key r ≠ key row := fun hk => hnot (List.mem_map.mpr ⟨r, hr, hk⟩)
        simp [this]
      · simp [hwk, hwu]
    | some old =>
      rw [insertOnConflict_found key doUpdate getID withID table freshID row old h]
      rw [List.map_map]
      apply List.map_congr_left
      intro r _
      simp only [Function.comp]
      by_cases hr : key r = key row
      · simp [hr, hkey, hidem]
      · simp [hr]

/-- With a unique key, the row that has the key of the stored row is the one the
statement updates, and its `id` is the one returned. -/
theorem insertOnConflict_of_mem (table : List α) (freshID : Int) (row old : α)
    (hunique : (table.map key).Nodup) (hmem : old ∈ table) (hk : key old = key row) :
    insertOnConflict key doUpdate getID withID table freshID row
      = (table.map fun r => if key r = key row then doUpdate row r else r, getID old) := by
  cases h : table.find? fun r => decide (key r = key row) with
  | none =>
    exact absurd (List.mem_map.mpr ⟨old, hmem, hk⟩) ((find?_key_eq_none_iff key table row).mp h)
  | some old' =>
    obtain ⟨hmem', hk'⟩ := find?_key_some key table row old' h
    have : old' = old :=
      List.inj_on_of_nodup_map hunique hmem' hmem (hk'.trans hk.symm)
    rw [insertOnConflict_found key doUpdate getID withID table freshID row old' h, this]


end Upsert

/-! ## The tracking table -/

theorem TrackHabit_eq (habit_tracks : List HabitTrackRecord) (freshID : Int)
    (record : HabitTrackRecord) :
    TrackRepository.TrackHabit habit_tracks freshID record
      = ((insertOnConflict trackKey overwriteTrack (fun r => r.ID)
            (fun r id => { r with ID := id }) habit_tracks freshID record).1,
          { record with
            ID := (insertOnConflict trackKey overwriteTrack (fun r => r.ID)
              (fun r id => { r with ID := id }) habit_tracks freshID record).2 }) := rfl

/-- The identifier that the record carries plays no part in the statement. -/
theorem TrackHabit_ignores_ID (habit_tracks : List HabitTrackRecord) (freshID id : Int)
    (record : HabitTrackRecord) :
    TrackRepository.TrackHabit habit_tracks freshID { record with ID := id }
      = TrackRepository.TrackHabit habit_tracks freshID record := by
  unfold TrackRepository.TrackHabit insertOnConflict
  rfl

/-- C18: `TrackRepository.TrackHabit` is an idempotent upsert keyed on `(habit_id,
date)`. On a table with a unique key: when a row has the key of the record, that
row alone changes, in `Completed`, `Value` and `Notes` only, and its `ID` is
returned; when no row has it, the record is inserted; the key stays unique; and a
second application with the same fields, with or without the returned `ID`,
leaves the table as it is and returns the same record. -/
theorem TrackHabit_idempotent_upsert (habit_tracks : List HabitTrackRecord) (freshID : Int)
    (record : HabitTrackRecord) (hunique : UniqueTrackKeys habit_tracks) :
    (∀ row ∈ habit_tracks, row.HabitID = record.HabitID → row.Date.abs = record.Date.abs →
      (TrackRepository.TrackHabit habit_tracks freshID record).2
          = { record with ID := row.ID } ∧
        (TrackRepository.TrackHabit habit_tracks freshID record).1
          = habit_tracks.map fun r =>
              if r = row then
                { row with
                  Completed := record.Completed, Value := record.Value, Notes := record.Notes }
              else r) ∧
    ((∀ row ∈ habit_tracks,
        ¬ (row.HabitID = record.HabitID ∧ row.Date.abs = record.Date.abs)) →
      TrackRepository.TrackHabit habit_tracks freshID record
        = (habit_tracks ++ [{ record with ID := freshID }], { record with ID := freshID })) ∧
    UniqueTrackKeys (TrackRepository.TrackHabit habit_tracks freshID record).1 ∧
    (∀ freshID',
      TrackRepository.TrackHabit (TrackRepository.TrackHabit habit_tracks freshID record).1
          freshID' record
        = TrackRepository.TrackHabit habit_tracks freshID record) ∧
    (∀ freshID',
      TrackRepository.TrackHabit (TrackRepository.TrackHabit habit_tracks freshID record).1
          freshID' (TrackRepository.TrackHabit habit_tracks freshID record).2
        = TrackRepository.TrackHabit habit_tracks freshID record) := by
  have hidem : ∀ freshID',
      TrackRepository.TrackHabit (TrackRepository.TrackHabit habit_tracks freshID record).1
          freshID' record
        = TrackRepository.TrackHabit habit_tracks freshID record := by
    intro freshID'
    rw [TrackHabit_eq _ freshID' record, TrackHabit_eq habit_tracks freshID record]
    simp only
    rw [insertOnConflict_idempotent trackKey overwriteTrack (fun r => r.ID)
      (fun r id => { r with ID := id }) (fun _ _ => rfl) (fun _ _ => rfl) (fun _ _ => rfl)
      (fun _ _ => rfl) (fun _ _ => rfl) (fun _ _ => rfl)]
  refine ⟨?_, ?_, ?_, hidem, ?_⟩
  · intro row hrow hhabit hdate
    have hk : trackKey row = trackKey record := by
      unfold trackKey
      rw [hhabit, hdate]
    rw [TrackHabit_eq, insertOnConflict_of_mem trackKey overwriteTrack (fun r => r.ID)
      (fun r id => { r with ID := id }) habit_tracks freshID record row hunique hrow hk]
    refine ⟨rfl, ?_⟩
    apply List.map_congr_left
    intro r hr
    by_cases hrr : r = row
    · subst hrr
      simp [hk, overwriteTrack]
    · have hne : trackKey r ≠ trackKey record := by
        intro hkr
        exact hrr (List.inj_on_of_nodup_map hunique hr hrow (hkr.trans hk.symm))
      simp [hne, hrr]
  · intro hnone
    have hfind : (habit_tracks.find? fun r => decide (trackKey r = trackKey record)) = none := by
      rw [List.find?_eq_none]
      intro x hx
      have := hnone x hx
      simp only [decide_eq_true_eq, trackKey, Prod.mk.injEq]
      exact this
    rw [TrackHabit_eq, insertOnConflict_fresh trackKey overwriteTrack (fun r => r.ID)
      (fun r id => { r with ID := id }) habit_tracks freshID record hfind]
  · rw [TrackHabit_eq]
    exact insertOnConflict_nodup trackKey overwriteTrack (fun r => r.ID)
      (fun r id => { r with ID := id }) (fun _ _ => rfl) (fun _ _ => rfl) habit_tracks freshID
      record hunique
  · intro freshID'
    have h2 : (TrackRepository.TrackHabit habit_tracks freshID record).2
        = { record with
            ID := (TrackRepository.TrackHabit habit_tracks freshID record).2.ID } := rfl
    rw [h2, TrackHabit_ignores_ID]
    exact hidem freshID'

/-- C18 on a table that holds a record of habit 1 for day 5: tracking that day
again changes `Completed` only and returns the identifier of the row. -/
theorem TrackHabit_idempotent_upsert_witness :
    UniqueTrackKeys [sampleRecord 5 false, sampleRecord 6 true] ∧
      (TrackRepository.TrackHabit [sampleRecord 5 false, sampleRecord 6 true] 99
          { sampleRecord 5 true with ID := 0 }).2 = sampleRecord 5 true ∧
      (TrackRepository.TrackHabit [sampleRecord 5 false, sampleRecord 6 true] 99
          { sampleRecord 5 true with ID := 0 }).1
        = [sampleRecord 5 true, sampleRecord 6 true] :=
  have hunique : UniqueTrackKeys [sampleRecord 5 false, sampleRecord 6 true] := by
    unfold UniqueTrackKeys
    decide
  have h := (TrackHabit_idempotent_upsert [sampleRecord 5 false, sampleRecord 6 true] 99
    { sampleRecord 5 true with ID := 0 } hunique).1 (sampleRecord 5 false) (by simp) rfl rfl
  ⟨hunique, h.1, by rw [h.2]; decide⟩

/-! ## The statistics table -/

theorem UpdateStatsOn_eq (habit_tracks : List HabitTrackRecord) (habit_stats : List Stat)
    (freshID : Int) (now : Time) (habitID userID : Int) :
    UpdateStatsOn habit_tracks habit_stats freshID now habitID userID
      = (.ok { buildStat now habitID userID (fetchedRecords now habit_tracks habitID) with
              ID := (upsertStatRow habit_stats freshID
                (buildStat now habitID userID (fetchedRecords now habit_tracks habitID))).2 },
          (upsertStatRow habit_stats freshID
            (buildStat now habitID userID (fetchedRecords now habit_tracks habitID))).1) := rfl

theorem windowStart_congr (now1 now2 : Time) (h : windowEnd now1 = windowEnd now2) :
    windowStart now1 = windowStart now2 := by
  unfold windowStart
  rw [h]

theorem buildStat_same_day (now1 now2 : Time) (habitID userID : Int)
    (habit_tracks : List HabitTrackRecord) (h : windowEnd now1 = windowEnd now2) :
    buildStat now2 habitID userID (fetchedRecords now2 habit_tracks habitID)
      = { buildStat now1 habitID userID (fetchedRecords now1 habit_tracks habitID) with
          CalculatedAt := now2 } := by
  have hs := windowStart_congr now1 now2 h
  unfold buildStat fetchedRecords
  rw [← h, ← hs]

/-- C17: two calls of `UpdateStats` for the same habit and user, on the same
tracking table and with clock readings that truncate to the same day, both return
a snapshot; the second agrees with the first in every field, the `ID` included,
except `CalculatedAt`; the `ID` is that of the row the table already held for the
key, if it held one; and afterwards the statistics table, whose key was unique
before, holds exactly one row with the key `(habitID, "weekly", startDate,
endDate)` and its key is still unique. -/
theorem UpdateStats_twice (habit_tracks : List HabitTrackRecord) (habit_stats : List Stat)
    (freshID freshID' : Int) (now1 now2 : Time) (habitID userID : Int)
    (hday : windowEnd now1 = windowEnd now2) (hunique : UniqueStatKeys habit_stats) :
    ∃ stat1 stat2 : Stat,
      (UpdateStatsOn habit_tracks habit_stats freshID now1 habitID userID).1 = .ok stat1 ∧
      (UpdateStatsOn habit_tracks
          (UpdateStatsOn habit_tracks habit_stats freshID now1 habitID userID).2
          freshID' now2 habitID userID).1 = .ok stat2 ∧
      stat2 = { stat1 with CalculatedAt := now2 } ∧
      stat1.CalculatedAt = now1 ∧
      (∀ row ∈ habit_stats, statKey row = statKey stat1 →
        stat1.ID = row.ID ∧ stat2.ID = row.ID) ∧
      statKey stat1 = (habitID, "weekly", (windowStart now1).abs, (windowEnd now1).abs) ∧
      ((UpdateStatsOn habit_tracks
          (UpdateStatsOn habit_tracks habit_stats freshID now1 habitID userID).2
          freshID' now2 habitID userID).2.filter fun row =>
        decide (statKey row
          = (habitID, "weekly", (windowStart now1).abs, (windowEnd now1).abs))).length = 1 ∧
      UniqueStatKeys
        (UpdateStatsOn habit_tracks
          (UpdateStatsOn habit_tracks habit_stats freshID now1 habitID userID).2
          freshID' now2 habitID userID).2 := by
  have hb := buildStat_same_day now1 now2 habitID userID habit_tracks hday
  generalize hs1 : buildStat now1 habitID userID (fetchedRecords now1 habit_tracks habitID)
    = s1 at hb
  have hkey1 : statKey s1
      = (habitID, "weekly", (windowStart now1).abs, (windowEnd now1).abs) := by
    rw [← hs1]
    rfl
  have hcalc : s1.CalculatedAt = now1 := by
    rw [← hs1]
    rfl
  have hkey2 : statKey { s1 with CalculatedAt := now2 } = statKey s1 := rfl
  simp only [UpdateStatsOn_eq, hb, hs1]
  have hid := insertOnConflict_same_id statKey overwriteStat (fun r => r.ID)
    (fun r id => { r with ID := id }) (fun _ _ => rfl) (fun _ _ => rfl) (fun _ _ => rfl)
    (fun _ _ => rfl) habit_stats freshID freshID' s1 { s1 with CalculatedAt := now2 } hkey2
  have hnodup1 := insertOnConflict_nodup statKey overwriteStat (fun r => r.ID)
    (fun r id => { r with ID := id }) (fun _ _ => rfl) (fun _ _ => rfl) habit_stats freshID
    s1 hunique
  have hnodup2 := insertOnConflict_nodup statKey overwriteStat (fun r => r.ID)
    (fun r id => { r with ID := id }) (fun _ _ => rfl) (fun _ _ => rfl) _ freshID'
    { s1 with CalculatedAt := now2 } hnodup1
  have hcount := insertOnConflict_count statKey overwriteStat (fun r => r.ID)
    (fun r id => { r with ID := id }) (fun _ _ => rfl) (fun _ _ => rfl) _ freshID'
    { s1 with CalculatedAt := now2 } hnodup1
  rw [hkey2, hkey1] at hcount
  refine ⟨_, _, rfl, rfl, ?_, hcalc, ?_, hkey1, hcount, hnodup2⟩
  · unfold upsertStatRow
    rw [hid]
  · intro row hrow hk
    have hfound := insertOnConflict_of_mem statKey overwriteStat (fun r => r.ID)
      (fun r id => { r with ID := id }) habit_stats freshID s1 row hunique hrow hk
    have hid1 : (upsertStatRow habit_stats freshID s1).2 = row.ID := by
      unfold upsertStatRow
      rw [hfound]
    refine ⟨hid1, ?_⟩
    show (upsertStatRow (upsertStatRow habit_stats freshID s1).1 freshID'
      { s1 with CalculatedAt := now2 }).2 = row.ID
    unfold upsertStatRow at hid1 ⊢
    rw [hid, hid1]

/-- C17 on the sample tables, at noon and one hour later. -/
theorem UpdateStats_twice_witness :
    ∃ stat1 stat2 : Stat,
      (UpdateStatsOn [sampleRecord 738000 true] [] 1 sampleNow 1 7).1 = .ok stat1 ∧
      (UpdateStatsOn [sampleRecord 738000 true]
          (UpdateStatsOn [sampleRecord 738000 true] [] 1 sampleNow 1 7).2
          2 ⟨738000 * (24 * Hour) + 13 * Hour, UTC⟩ 1 7).1 = .ok stat2 ∧
      stat2 = { stat1 with CalculatedAt := ⟨738000 * (24 * Hour) + 13 * Hour, UTC⟩ } :=
  have h := UpdateStats_twice [sampleRecord 738000 true] [] 1 2 sampleNow
    ⟨738000 * (24 * Hour) + 13 * Hour, UTC⟩ 1 7 (by decide) (by unfold UniqueStatKeys; decide)
  h.elim fun stat1 h1 => h1.elim fun stat2 h2 => ⟨stat1, stat2, h2.1, h2.2.1, h2.2.2.1⟩

/-! ## The two streak fields -/

/-- C20: for every sequence of tracking records, the `Streak` and the
`LongestStreak` that `UpdateStats` computes are equal. -/
theorem UpdateStats_streak_eq_longestStreak (now : Time) (habitID userID : Int)
    (records : List HabitTrackRecord) :
    (buildStat now habitID userID records).Streak
      = (buildStat now habitID userID records).LongestStreak := by
  show (finalCounters records).streak = (finalCounters records).longestStreak
  rw [finalCounters_streak_eq_longestRun, finalCounters_longestStreak]

/-! ## Bounds and monotonicity of the counters -/

theorem countP_cons_completed (r : HabitTrackRecord) (l : List HabitTrackRecord)
    (h : r.Completed = true) :
    (r :: l).countP (fun r => r.Completed) = l.countP (fun r => r.Completed) + 1 := by
  simp [List.countP_cons, h]

theorem countP_cons_skipped (r : HabitTrackRecord) (l : List HabitTrackRecord)
    (h : r.Completed = false) :
    (r :: l).countP (fun r => r.Completed) = l.countP (fun r => r.Completed) := by
  simp [List.countP_cons, h]

theorem leadingRun_le_countP (l : List HabitTrackRecord) :
    leadingRun l ≤ l.countP (fun r => r.Completed) := by
  induction l with
  | nil => simp [leadingRun]
  | cons r rest ih =>
    cases h : r.Completed
    · rw [leadingRun_cons_skipped r rest h]
      exact Nat.zero_le _
    · rw [leadingRun_cons_completed r rest h, countP_cons_completed r rest h]
      omega

/-- No run is longer than the number of completed records. -/
theorem longestRun_le_countP (l : List HabitTrackRecord) :
    longestRun l ≤ l.countP (fun r => r.Completed) := by
  induction l with
  | nil => simp [longestRun]
  | cons r rest ih =>
    have hlead := leadingRun_le_countP (r :: rest)
    have hmono : rest.countP (fun r => r.Completed)
        ≤ (r :: rest).countP (fun r => r.Completed) := by
      cases h : r.Completed
      · rw [countP_cons_skipped r rest h]
      · rw [countP_cons_completed r rest h]
        omega
    simp only [longestRun]
    omega

/-- There is a run exactly when there is a completed record. -/
theorem longestRun_eq_zero_iff (l : List HabitTrackRecord) :
    longestRun l = 0 ↔ l.countP (fun r => r.Completed) = 0 := by
  constructor
  · intro h0
    induction l with
    | nil => rfl
    | cons r rest ih =>
      simp only [longestRun] at h0
      have h1 : leadingRun (r :: rest) = 0 := by omega
      have h2 : longestRun rest = 0 := by omega
      cases h : r.Completed
      · rw [countP_cons_skipped r rest h]
        exact ih h2
      · rw [leadingRun_cons_completed r rest h] at h1
        omega
  · intro h0
    have := longestRun_le_countP l
    omega

/-- C21: for every sequence of tracking records, the values that `UpdateStats`
computes satisfy `0 <= streak <= completedDays`, `0 <= longestStreak <=
completedDays` and `completedDays <= number of records`, and `streak = 0` if and
only if `completedDays = 0`. -/
theorem UpdateStats_counter_bounds (now : Time) (habitID userID : Int)
    (records : List HabitTrackRecord) :
    0 ≤ (buildStat now habitID userID records).Streak ∧
      (buildStat now habitID userID records).Streak
        ≤ (buildStat now habitID userID records).CompletedDays ∧
      0 ≤ (buildStat now habitID userID records).LongestStreak ∧
      (buildStat now habitID userID records).LongestStreak
        ≤ (buildStat now habitID userID records).CompletedDays ∧
      (buildStat now habitID userID records).CompletedDays ≤ records.length ∧
      ((buildStat now habitID userID records).Streak = 0 ↔
        (buildStat now habitID userID records).CompletedDays = 0) := by
  show 0 ≤ (finalCounters records).streak ∧
    (finalCounters records).streak ≤ (finalCounters records).completedDays ∧
    0 ≤ (finalCounters records).longestStreak ∧
    (finalCounters records).longestStreak ≤ (finalCounters records).completedDays ∧
    (finalCounters records).completedDays ≤ records.length ∧
    ((finalCounters records).streak = 0 ↔ (finalCounters records).completedDays = 0)
  rw [finalCounters_streak_eq_longestRun, finalCounters_longestStreak,
    finalCounters_completedDays]
  exact ⟨Nat.zero_le _, longestRun_le_countP records, Nat.zero_le _,
    longestRun_le_countP records, countP_completed_le_length records,
    longestRun_eq_zero_iff records⟩

theorem longestRun_cons (r : HabitTrackRecord) (rest : List HabitTrackRecord) :
    longestRun (r :: rest) = max (leadingRun (r :: rest)) (longestRun rest) := rfl

/-- Setting one record of the sequence to completed lowers neither the number of
completed records, nor the run at the head, nor the longest run. -/
theorem counters_mono_set (pre post : List HabitTrackRecord) (r : HabitTrackRecord) :
    (pre ++ r :: post).countP (fun r => r.Completed)
        ≤ (pre ++ { r with Completed := true } :: post).countP (fun r => r.Completed) ∧
      leadingRun (pre ++ r :: post)
        ≤ leadingRun (pre ++ { r with Completed := true } :: post) ∧
      longestRun (pre ++ r :: post)
        ≤ longestRun (pre ++ { r with Completed := true } :: post) := by
  induction pre with
  | nil =>
    have hset : ({ r with Completed := true } : HabitTrackRecord).Completed = true := rfl
    simp only [List.nil_append, longestRun]
    rw [countP_cons_completed _ post hset, leadingRun_cons_completed _ post hset]
    cases h : r.Completed
    · rw [countP_cons_skipped r post h, leadingRun_cons_skipped r post h]
      omega
    · rw [countP_cons_completed r post h, leadingRun_cons_completed r post h]
      omega
  | cons a pre ih =>
    obtain ⟨ih1, ih2, ih3⟩ := ih
    rw [List.cons_append, List.cons_append, longestRun_cons, longestRun_cons]
    cases h : a.Completed
    · rw [countP_cons_skipped a _ h, countP_cons_skipped a _ h,
        leadingRun_cons_skipped a _ h, leadingRun_cons_skipped a _ h]
      omega
    · rw [countP_cons_completed a _ h, countP_cons_completed a _ h,
        leadingRun_cons_completed a _ h, leadingRun_cons_completed a _ h]
      omega

/-- Appending a record lowers neither the number of completed records nor the
longest run. -/
theorem counters_mono_append (l : List HabitTrackRecord) (r : HabitTrackRecord) :
    l.countP (fun r => r.Completed) ≤ (l ++ [r]).countP (fun r => r.Completed) ∧
      longestRun l ≤ longestRun (l ++ [r]) := by
  constructor
  · rw [List.countP_append]
    exact Nat.le_add_right _ _
  · obtain ⟨⟨block, hb, hc, hlen⟩, _⟩ := longestRun_isLongestCompletedBlock l
    obtain ⟨_, hmax⟩ := longestRun_isLongestCompletedBlock (l ++ [r])
    rw [← hlen]
    exact hmax block (hb.trans (List.prefix_append l [r]).isInfix) hc

/-- C22: the scan of `UpdateStats` is monotone. For every sequence of tracking
records, setting one record to `Completed = true`, in particular one that was not
completed, decreases none of `CompletedDays`, `LongestStreak` and `Streak`, and
appending one more record at the end of the sequence decreases none of them. -/
theorem UpdateStats_monotone (now : Time) (habitID userID : Int)
    (pre post records : List HabitTrackRecord) (r : HabitTrackRecord) :
    ((buildStat now habitID userID (pre ++ r :: post)).CompletedDays
        ≤ (buildStat now habitID userID
            (pre ++ { r with Completed := true } :: post)).CompletedDays ∧
      (buildStat now habitID userID (pre ++ r :: post)).LongestStreak
        ≤ (buildStat now habitID userID
            (pre ++ { r with Completed := true } :: post)).LongestStreak ∧
      (buildStat now habitID userID (pre ++ r :: post)).Streak
        ≤ (buildStat now habitID userID
            (pre ++ { r with Completed := true } :: post)).Streak) ∧
    ((buildStat now habitID userID records).CompletedDays
        ≤ (buildStat now habitID userID (records ++ [r])).CompletedDays ∧
      (buildStat now habitID userID records).LongestStreak
        ≤ (buildStat now habitID userID (records ++ [r])).LongestStreak ∧
      (buildStat now habitID userID records).Streak
        ≤ (buildStat now habitID userID (records ++ [r])).Streak) := by
  obtain ⟨hs1, _, hs3⟩ := counters_mono_set pre post r
  obtain ⟨ha1, ha2⟩ := counters_mono_append records r
  show ((finalCounters _).completedDays ≤ (finalCounters _).completedDays ∧
      (finalCounters _).longestStreak ≤ (finalCounters _).longestStreak ∧
      (finalCounters _).streak ≤ (finalCounters _).streak) ∧
    ((finalCounters _).completedDays ≤ (finalCounters _).completedDays ∧
      (finalCounters _).longestStreak ≤ (finalCounters _).longestStreak ∧
      (finalCounters _).streak ≤ (finalCounters _).streak)
  simp only [finalCounters_streak_eq_longestRun, finalCounters_longestStreak,
    finalCounters_completedDays]
  exact ⟨⟨hs1, hs3, hs3⟩, ⟨ha1, ha2, ha2⟩⟩

/-! ## The password reset request -/

/-- C23 at its failing input: on a user table that holds `ann@example.com` and
not `bob@example.com`, both requests are answered 200, the registered one with
the message `Password reset link sent` and the token, the unregistered one with
the message `If your email is registered, ...`: the bodies differ. -/
theorem RequestPasswordReset_reveals_registration :
    sampleGetByEmail "ann@example.com" = .ok sampleUser ∧
      sampleGetByEmail "bob@example.com" = .error "user not found" ∧
      UserHandler.RequestPasswordReset sampleGetByEmail (fun _ _ _ => .ok ()) sampleNow
          "20240102150405" (some ⟨"ann@example.com"⟩)
        = ⟨200, [("message", "Password reset link sent"),
            ("token", "reset-token-20240102150405")]⟩ ∧
      UserHandler.RequestPasswordReset sampleGetByEmail (fun _ _ _ => .ok ()) sampleNow
          "20240102150405" (some ⟨"bob@example.com"⟩)
        = ⟨200, [("message",
            "If your email is registered, you will receive a password reset link")]⟩ ∧
      (UserHandler.RequestPasswordReset sampleGetByEmail (fun _ _ _ => .ok ()) sampleNow
          "20240102150405" (some ⟨"ann@example.com"⟩)).body
        ≠ (UserHandler.RequestPasswordReset sampleGetByEmail (fun _ _ _ => .ok ()) sampleNow
          "20240102150405" (some ⟨"bob@example.com"⟩)).body := by
  refine ⟨rfl, rfl, by decide, by decide, by decide⟩

/-- Whatever the repository does, the response to a registered email differs from
the response to an unregistered one. -/
theorem RequestPasswordReset_distinguishes (getByEmail : String → Except String User)
    (updateToken : String → String → Time → Except String Unit) (now : Time) (stamp : String)
    (registered unregistered : PasswordResetRequest) (user : User) (err : String)
    (h1 : getByEmail registered.Email = .ok user)
    (h2 : getByEmail unregistered.Email = .error err) :
    UserHandler.RequestPasswordReset getByEmail updateToken now stamp (some registered)
      ≠ UserHandler.RequestPasswordReset getByEmail updateToken now stamp
          (some unregistered) := by
  unfold UserHandler.RequestPasswordReset
  simp only [h1, h2]
  cases updateToken user.Email ("reset-token-" ++ stamp) (now.Add (24 * Hour)) <;> simp

/-! ## The middleware `AuthMiddleware` -/

/-- The empty string splits into one empty part. -/
theorem Split_empty : Split "" = [""] := rfl

/-- C24: for every value of the `Authorization` header and every behaviour of
`ValidateJWT`, `AuthMiddleware` passes a token to `ValidateJWT` exactly when
`strings.Split(header, " ")` has two parts and the first is `bearer` once
lowered, and the token passed is the second part; the empty header is answered
401 `Authorization header is required`; every other header that fails the test
is answered 401 with the Bearer-format message; and whenever a response is
written, its status is 401, `c.Abort()` ran, `c.Next()` did not, and no `userID`
was set. -/
theorem AuthMiddleware_bearer (validateJWT : String → Except String Int) (authHeader : String) :
    ((∃ token, (AuthMiddleware validateJWT authHeader).validated = some token) ↔
        ((Split authHeader).length = 2 ∧
          ToLower ((Split authHeader).headD "") = "bearer")) ∧
      (∀ token, (AuthMiddleware validateJWT authHeader).validated = some token →
        (Split authHeader).get? 1 = some token) ∧
      (authHeader = "" →
        (AuthMiddleware validateJWT authHeader).response
          = some ⟨401, [("error", "Authorization header is required")]⟩) ∧
      (authHeader ≠ "" →
        ¬ ((Split authHeader).length = 2 ∧
            ToLower ((Split authHeader).headD "") = "bearer") →
        (AuthMiddleware validateJWT authHeader).response
          = some ⟨401, [("error", "Authorization header format must be Bearer \x7btoken\x7d")]⟩) ∧
      (∀ r, (AuthMiddleware validateJWT authHeader).response = some r →
        r.status = 401 ∧ (AuthMiddleware validateJWT authHeader).aborted = true ∧
          (AuthMiddleware validateJWT authHeader).userID = none ∧
          (AuthMiddleware validateJWT authHeader).next = false) := by
  by_cases hempty : authHeader = ""
  · subst hempty
    simp [AuthMiddleware, Split_empty]
  · unfold AuthMiddleware
    simp only [hempty, if_false]
    split
    · rename_i scheme tokenString hsplit
      simp only [hsplit]
      by_cases hb : ToLower scheme = "bearer"
      · cases hv : validateJWT tokenString <;> simp [hb, hv]
      · simp [hb]
    · rename_i hne
      have hcond : ¬ ((Split authHeader).length = 2) := by
        intro hlen
        match hs : Split authHeader, hlen with
        | [a, b], _ => exact hne a b hs
      simp [hcond]

/-- C24 on sample headers: `bEaRer good` has the two parts `bEaRer` and `good`,
and `good` is passed to `ValidateJWT`, which accepts it for user 7; `Bearer  good`
with two spaces has three parts and is answered with the Bearer-format message;
`Token good` is answered so too; `Bearer bad` reaches `ValidateJWT` and is
answered `Invalid or expired token`. -/
theorem AuthMiddleware_bearer_witness :
    Split "bEaRer good" = ["bEaRer", "good"] ∧
      AuthMiddleware sampleValidateJWT "bEaRer good"
        = { response := none, aborted := false, userID := some 7, validated := some "good",
            next := true } ∧
      Split "Bearer  good" = ["Bearer", "", "good"] ∧
      AuthMiddleware sampleValidateJWT "Bearer  good"
        = { response :=
              some ⟨401, [("error", "Authorization header format must be Bearer \x7btoken\x7d")]⟩,
            aborted := true, userID := none, validated := none, next := false } ∧
      AuthMiddleware sampleValidateJWT "Token good"
        = { response :=
              some ⟨401, [("error", "Authorization header format must be Bearer \x7btoken\x7d")]⟩,
            aborted := true, userID := none, validated := none, next := false } ∧
      AuthMiddleware sampleValidateJWT "Bearer bad"
        = { response := some ⟨401, [("error", "Invalid or expired token")]⟩,
            aborted := true, userID := none, validated := some "bad", next := false } ∧
      ((∃ token, (AuthMiddleware sampleValidateJWT "bEaRer good").validated = some token) ↔
        ((Split "bEaRer good").length = 2 ∧
          ToLower ((Split "bEaRer good").headD "") = "bearer")) :=
  ⟨by decide, by decide, by decide, by decide, by decide, by decide,
    (AuthMiddleware_bearer sampleValidateJWT "bEaRer good").1⟩

/-! ## The handler `UpdateHabit` -/

/-- C25: in `HabitHandler.UpdateHabit`, for every request and every behaviour of
the database, of the validator and of the clock, a habit passed to
`HabitRepository.Update` is the body of the request with `ID` set to the id of the
URL, `UserID` to the authenticated user and `CreatedAt` to the `CreatedAt` of the
habit that `GetByID` returned for that id and user, and the habit of a 200
response has the same three fields; when the user is authenticated, the id
parses, the habit is found with the user as owner and the body binds and passes
validation, `Update` is called, once; and when `GetByID` returns only habits
whose `UserID` is the queried user, the response is never 403. -/
theorem UpdateHabit_frame (db : Database) (validate : Habit → Except String Unit)
    (exec : Habit → Except String Unit) (now : Time) (req : UpdateRequest) :
    (∀ habit, HabitCall.Update habit ∈ (HabitHandler.UpdateHabit db validate exec now req).2 →
      ∃ userID habitID stored body,
        req.userID = some userID ∧ req.id = some habitID ∧ req.body = some body ∧
          db.habitByID habitID userID = .ok stored ∧
          habit = { body with ID := habitID, UserID := userID, CreatedAt := stored.CreatedAt } ∧
          habit.ID = habitID ∧ habit.UserID = userID ∧ habit.CreatedAt = stored.CreatedAt) ∧
      (∀ habit, (HabitHandler.UpdateHabit db validate exec now req).1.body = .habit habit →
        ∃ userID habitID stored,
          req.userID = some userID ∧ req.id = some habitID ∧
            db.habitByID habitID userID = .ok stored ∧
            habit.ID = habitID ∧ habit.UserID = userID ∧
            habit.CreatedAt = stored.CreatedAt) ∧
      (∀ userID habitID stored body,
        req.userID = some userID → req.id = some habitID → req.body = some body →
        db.habitByID habitID userID = .ok stored → stored.UserID = userID →
        validate { body with ID := habitID, UserID := userID, CreatedAt := stored.CreatedAt }
          = .ok () →
        (HabitHandler.UpdateHabit db validate exec now req).2
          = [.GetByID habitID userID,
              .Update { body with ID := habitID, UserID := userID,
                                  CreatedAt := stored.CreatedAt }]) ∧
      ((∀ id userID habit, db.habitByID id userID = .ok habit → habit.UserID = userID) →
        (HabitHandler.UpdateHabit db validate exec now req).1.status ≠ 403) := by
  have hcall : ∀ userID habitID stored body,
      req.userID = some userID → req.id = some habitID → req.body = some body →
      db.habitByID habitID userID = .ok stored → stored.UserID = userID →
      validate { body with ID := habitID, UserID := userID, CreatedAt := stored.CreatedAt }
        = .ok () →
      (HabitHandler.UpdateHabit db validate exec now req).2
        = [.GetByID habitID userID,
            .Update { body with ID := habitID, UserID := userID,
                                CreatedAt := stored.CreatedAt }] := by
    intro userID habitID stored body h1 h2 h3 hget howner hval
    obtain ⟨u, i, b⟩ := req
    simp only at h1 h2 h3
    subst h1 h2 h3
    simp only [HabitHandler.UpdateHabit, hget, howner, hval, HabitRepository.Update]
    simp only [ne_eq, not_true_eq_false, if_false]
    split <;> rfl
  refine ⟨?_, ?_, hcall, ?_⟩
  all_goals
    clear hcall
    obtain ⟨u, i, b⟩ := req
    unfold HabitHandler.UpdateHabit
    cases u with
    | none => simp
    | some userID =>
      cases i with
      | none => simp
      | some habitID =>
        cases hget : db.habitByID habitID userID with
        | error e => simp [hget]
        | ok stored =>
          cases b with
          | none => simp [hget]
          | some body =>
            by_cases howner : stored.UserID = userID
            · simp only [hget, howner, ne_eq, not_true_eq_false, if_false]
              split
              · simp
              · split
                · simp [hget]
                · rename_i hupdate
                  simp only [HabitRepository.Update, Prod.mk.injEq] at hupdate
                  obtain ⟨hstored, _⟩ := hupdate
                  subst hstored
                  simp [hget]
            · first
              | (intro hall
                 exact absurd (hall _ _ _ hget) howner)
              | simp [hget, howner]

/-- C25 on the sample database: user 7 updates habit 1 with a body that names
habit 99, user 98 and another creation time. -/
theorem UpdateHabit_frame_witness :
    (HabitHandler.UpdateHabit sampleDatabase (fun _ => .ok ()) (fun _ => .ok ()) sampleNow
        ⟨some 7, some 1,
          some { sampleHabit with ID := 99, UserID := 98, CreatedAt := ⟨5, UTC⟩, Name := "run" }⟩).2
      = [.GetByID 1 7, .Update { sampleHabit with Name := "run" }] ∧
    (HabitHandler.UpdateHabit sampleDatabase (fun _ => .ok ()) (fun _ => .ok ()) sampleNow
        ⟨some 7, some 1,
          some { sampleHabit with ID := 99, UserID := 98, CreatedAt := ⟨5, UTC⟩, Name := "run" }⟩).1
      = ⟨200, .habit { sampleHabit with Name := "run", UpdatedAt := sampleNow }⟩ ∧
    ∃ userID habitID stored body,
      some 7 = some userID ∧ some 1 = some habitID ∧
        some { sampleHabit with ID := 99, UserID := 98, CreatedAt := ⟨5, UTC⟩, Name := "run" }
          = some body ∧
        sampleDatabase.habitByID habitID userID = .ok stored ∧
        { sampleHabit with Name := "run" }
          = { body with ID := habitID, UserID := userID, CreatedAt := stored.CreatedAt } ∧
        ({ sampleHabit with Name := "run" } : Habit).ID = habitID ∧
        ({ sampleHabit with Name := "run" } : Habit).UserID = userID ∧
        ({ sampleHabit with Name := "run" } : Habit).CreatedAt = stored.CreatedAt :=
  ⟨by decide, by decide,
    (UpdateHabit_frame sampleDatabase (fun _ => .ok ()) (fun _ => .ok ()) sampleNow
      ⟨some 7, some 1,
        some { sampleHabit with ID := 99, UserID := 98, CreatedAt := ⟨5, UTC⟩, Name := "run" }⟩).1
      { sampleHabit with Name := "run" } (by decide)⟩

end Habitrack
